import Mathlib

/-!
# Verification of the ERP stock ledger and MercadoLibre reconciliation engine

Shallow embedding of `inventory/services.py` (the stock ledger) and
`inventory/mercadolibre.py` (product matcher and reconciliation engine).

Numeric conventions: Python `Decimal` values quantized to 2 decimal places are
represented as integers counting hundredths (cents).  Every ledger input is
taken already quantized (the source's `_to_decimal` re-quantization is then
the identity).  `ROUND_HALF_UP` (ties away from zero, as in Python's
`decimal`) on an exact quotient is `roundHalfUp`.  Division in the source is
performed on exact `Decimal`s and then quantized to 2 decimals, which on the
value ranges involved equals rounding the exact rational quotient.
-/

deriving instance DecidableEq for Except

namespace Erp

/-- Python `Decimal.quantize(0.01, ROUND_HALF_UP)` applied to the exact
quotient `num / den` of cent-valued quantities (`den > 0`): rounds to the
nearest integer with ties away from zero. -/
def roundHalfUp (num den : Int) : Int :=
  if 0 ≤ num then (2 * num + den) / (2 * den)
  else -((2 * (-num) + den) / (2 * den))

/-- Errors raised by `inventory/services.py` (class `StockError` hierarchy). -/
inductive StockError where
  | negativeStock
  | invalidMovement
  deriving Repr, DecidableEq

/-- `StockMovement.MovementType` choices. -/
inductive MovementType where
  | entry
  | exit
  | transfer
  | adjustment
  deriving Repr, DecidableEq

/-- The mutable columns of `Product` touched by the ledger: `name`, `group`,
`avg_cost`, `vat_percent` (in hundredths of a percent), `default_supplier`. -/
structure ProductInfo where
  name : String
  group : String
  avgCost : Int
  vatPercent : Int
  defaultSupplier : Option Nat
  deriving Repr, DecidableEq

/-- One `StockMovement` row (columns used by the ledger write paths; the
`created_at` timestamp is outside the embedding). -/
structure Movement where
  movementType : MovementType
  productId : Nat
  quantity : Int
  unitCost : Int
  salePrice : Int
  vatPercent : Int
  fromWarehouse : Option Nat
  toWarehouse : Option Nat
  userId : Nat
  reference : String
  saleRef : Option String
  purchaseId : Option Nat
  deriving Repr, DecidableEq

/-- The ledger-owned database state: `Stock` rows keyed by
(product id, warehouse id), `Product` rows keyed by product id,
`SupplierProduct` rows (last cost; timestamps omitted) keyed by
(supplier id, product id), and the append-only `StockMovement` log. -/
structure LedgerState where
  stocks : List ((Nat × Nat) × Int)
  products : List (Nat × ProductInfo)
  supplierProducts : List ((Nat × Nat) × Int)
  movements : List Movement
  deriving Repr, DecidableEq

namespace LedgerState

/-- The `Stock` row for (product, warehouse), if it exists. -/
def lookupStock (st : LedgerState) (p w : Nat) : Option Int :=
  (st.stocks.find? (fun e => e.1 = (p, w))).map (·.2)

/-- Current quantity at (product, warehouse); `0.00` when no row exists. -/
def stockQty (st : LedgerState) (p w : Nat) : Int :=
  (st.lookupStock p w).getD 0

/-- The `Product` row, if it exists. -/
def lookupProduct (st : LedgerState) (p : Nat) : Option ProductInfo :=
  (st.products.find? (fun e => e.1 = p)).map (·.2)

/-- `product.avg_cost` (0 when the product row is absent). -/
def avgCostOf (st : LedgerState) (p : Nat) : Int :=
  ((st.lookupProduct p).map (·.avgCost)).getD 0

/-- `product.vat_percent` (0 when the product row is absent). -/
def vatPercentOf (st : LedgerState) (p : Nat) : Int :=
  ((st.lookupProduct p).map (·.vatPercent)).getD 0

end LedgerState

/-- `Stock.objects.select_for_update().get_or_create(...)`: returns the stock
table with the (product, warehouse) row present (created at `0.00` when
absent) together with the row's quantity. -/
def getOrCreateStock (stocks : List ((Nat × Nat) × Int)) (p w : Nat) :
    List ((Nat × Nat) × Int) × Int :=
  match stocks.find? (fun e => e.1 = (p, w)) with
  | some e => (stocks, e.2)
  | none => (stocks ++ [((p, w), 0)], 0)

/-- Overwrite the quantity of an existing (product, warehouse) stock row. -/
def setStockQty (stocks : List ((Nat × Nat) × Int)) (p w : Nat) (q : Int) :
    List ((Nat × Nat) × Int) :=
  stocks.map (fun e => if e.1 = (p, w) then (e.1, q) else e)

/-- Update the `Product` row at `p` (no-op when the row is absent). -/
def updateProduct (products : List (Nat × ProductInfo))
    (p : Nat) (f : ProductInfo → ProductInfo) : List (Nat × ProductInfo) :=
  products.map (fun e => if e.1 = p then (e.1, f e.2) else e)

/-- `_total_stock_quantity`: sum of all `Stock` quantities of the product. -/
def totalStockQuantity (stocks : List ((Nat × Nat) × Int)) (p : Nat) : Int :=
  ((stocks.filter (fun e => e.1.1 = p)).map (·.2)).sum

/-- `_weighted_average(current_avg, current_qty, unit_cost, quantity)`.
All four arguments are cent-valued; the exact quotient
`(current_avg·current_qty + unit_cost·quantity) / (current_qty + quantity)`
is again in cents, so the source's quantize-to-2-decimals is `roundHalfUp`.
(The source's `current_avg or Decimal("0.00")` maps `0` to `0` and is the
identity here.) -/
def weightedAverage (currentAvg currentQty unitCost quantity : Int) : Int :=
  if quantity ≤ 0 then currentAvg
  else
    let totalCost := currentAvg * currentQty + unitCost * quantity
    let newTotalQty := currentQty + quantity
    if newTotalQty ≤ 0 then 0
    else roundHalfUp totalCost newTotalQty

/-- VAT-exclusive unit cost computed by `register_entry`: for `vat > 0`,
`(cost_with_vat / (1 + vat/100)).quantize(0.01, ROUND_HALF_UP)`; with the
cost in cents and the VAT rate in hundredths of a percent the exact quotient
is `cost·10000 / (10000 + vat)` cents. -/
def entryCostBase (costWithVat vat : Int) : Int :=
  if 0 < vat then roundHalfUp (costWithVat * 10000) (10000 + vat)
  else costWithVat

/-- `services.register_entry` (source lines 55–114).  Arguments follow the
source signature; `quantity`/`unitCost` are in cents, `vatPercent` in
hundredths of a percent (`none` models the `None` default).  The source's
unused local `current_total` is dropped.  A raised error rolls the
`transaction.atomic` block back, modelled by returning the error without a
state. -/
def registerEntry (st : LedgerState) (product warehouse : Nat)
    (quantity unitCost : Int) (user : Nat) (reference : String)
    (vatPercent : Option Int) (supplier : Option Nat) (purchase : Option Nat) :
    Except StockError LedgerState :=
  let qty := quantity
  let costWithVat := unitCost
  let vat := vatPercent.getD 0
  if qty ≤ 0 then .error .invalidMovement
  else
    let costBase := entryCostBase costWithVat vat
    let products1 := updateProduct st.products product (fun info =>
      if vatPercent.isSome then { info with avgCost := costBase, vatPercent := vat }
      else { info with avgCost := costBase })
    let stocks1 := (getOrCreateStock st.stocks product warehouse).1
    let cur := (getOrCreateStock st.stocks product warehouse).2
    let stocks2 := setStockQty stocks1 product warehouse (cur + qty)
    let movement : Movement :=
      { movementType := .entry, productId := product, quantity := qty,
        unitCost := costWithVat, salePrice := 0, vatPercent := vat,
        fromWarehouse := none, toWarehouse := some warehouse,
        userId := user, reference := reference, saleRef := none,
        purchaseId := purchase }
    let st1 : LedgerState :=
      { st with products := products1, stocks := stocks2,
                movements := st.movements ++ [movement] }
    match supplier with
    | none => .ok st1
    | some sup =>
        let sps :=
          match st1.supplierProducts.find? (fun e => e.1 = (sup, product)) with
          | some _ => st1.supplierProducts.map (fun e =>
              if e.1 = (sup, product) then (e.1, costWithVat) else e)
          | none => st1.supplierProducts ++ [((sup, product), costWithVat)]
        let products2 :=
          if ((st1.products.find? (fun e => e.1 = product)).map
                (fun e => e.2.defaultSupplier)).getD none = none then
            updateProduct st1.products product
              (fun info => { info with defaultSupplier := some sup })
          else st1.products
        .ok { st1 with supplierProducts := sps, products := products2 }

/-- `services.register_exit` (source lines 117–152).  On success the source
stock row decreases by `quantity` and the movement records the product's
current `avg_cost`; the product row itself is untouched. -/
def registerExit (st : LedgerState) (product warehouse : Nat)
    (quantity : Int) (user : Nat) (reference : String)
    (allowNegative : Bool) (salePrice : Option Int) (vatPercent : Option Int)
    (saleRef : Option String) : Except StockError LedgerState :=
  let qty := quantity
  let vat := vatPercent.getD 0
  if qty ≤ 0 then .error .invalidMovement
  else
    let stocks1 := (getOrCreateStock st.stocks product warehouse).1
    let cur := (getOrCreateStock st.stocks product warehouse).2
    if !allowNegative ∧ cur - qty < 0 then .error .negativeStock
    else
      let stocks2 := setStockQty stocks1 product warehouse (cur - qty)
      let movement : Movement :=
        { movementType := .exit, productId := product, quantity := qty,
          unitCost := st.avgCostOf product,
          salePrice := salePrice.getD 0, vatPercent := vat,
          fromWarehouse := some warehouse, toWarehouse := none,
          userId := user, reference := reference, saleRef := saleRef,
          purchaseId := none }
      .ok { st with stocks := stocks2,
                    movements := st.movements ++ [movement] }

/-- `services.register_transfer` (source lines 155–187).  Decrements the
source stock row under the same negative-stock rule as exit and writes one
movement carrying both warehouses; the destination stock table is never
read or written. -/
def registerTransfer (st : LedgerState) (product fromWarehouse toWarehouse : Nat)
    (quantity : Int) (user : Nat) (reference : String) (allowNegative : Bool) :
    Except StockError LedgerState :=
  if fromWarehouse = toWarehouse then .error .invalidMovement
  else
    let qty := quantity
    if qty ≤ 0 then .error .invalidMovement
    else
      let stocks1 := (getOrCreateStock st.stocks product fromWarehouse).1
      let cur := (getOrCreateStock st.stocks product fromWarehouse).2
      if !allowNegative ∧ cur - qty < 0 then .error .negativeStock
      else
        let stocks2 := setStockQty stocks1 product fromWarehouse (cur - qty)
        let movement : Movement :=
          { movementType := .transfer, productId := product, quantity := qty,
            unitCost := st.avgCostOf product, salePrice := 0, vatPercent := 0,
            fromWarehouse := some fromWarehouse,
            toWarehouse := some toWarehouse,
            userId := user, reference := reference, saleRef := none,
            purchaseId := none }
        .ok { st with stocks := stocks2,
                      movements := st.movements ++ [movement] }

/-- `services.register_adjustment` (source lines 190–229).  A positive
adjustment recomputes `avg_cost` as `_weighted_average(avg_cost,
total_quantity, cost, qty)` — the total is read over all warehouses after
the target row's `get_or_create` (the freshly created row contributes
`0.00`) — and increments the target row; a negative adjustment decrements
under the exit negative-stock rule and leaves `avg_cost` alone. -/
def registerAdjustment (st : LedgerState) (product warehouse : Nat)
    (quantity : Int) (user : Nat) (unitCost : Option Int) (reference : String)
    (allowNegative : Bool) : Except StockError LedgerState :=
  let qty := quantity
  if qty = 0 then .error .invalidMovement
  else if 0 < qty then
    let cost := unitCost.getD (st.avgCostOf product)
    let stocks1 := (getOrCreateStock st.stocks product warehouse).1
    let cur := (getOrCreateStock st.stocks product warehouse).2
    let currentTotal := totalStockQuantity stocks1 product
    let newAvg := weightedAverage (st.avgCostOf product) currentTotal cost qty
    let products1 := updateProduct st.products product
      (fun info => { info with avgCost := newAvg })
    let stocks2 := setStockQty stocks1 product warehouse (cur + qty)
    let movement : Movement :=
      { movementType := .adjustment, productId := product, quantity := |qty|,
        unitCost := cost, salePrice := 0, vatPercent := 0,
        fromWarehouse := none, toWarehouse := some warehouse,
        userId := user, reference := reference, saleRef := none,
        purchaseId := none }
    .ok { st with products := products1, stocks := stocks2,
                  movements := st.movements ++ [movement] }
  else
    let stocks1 := (getOrCreateStock st.stocks product warehouse).1
    let cur := (getOrCreateStock st.stocks product warehouse).2
    if !allowNegative ∧ cur + qty < 0 then .error .negativeStock
    else
      let stocks2 := setStockQty stocks1 product warehouse (cur + qty)
      let movement : Movement :=
        { movementType := .adjustment, productId := product, quantity := |qty|,
          unitCost := st.avgCostOf product, salePrice := 0, vatPercent := 0,
          fromWarehouse := some warehouse, toWarehouse := none,
          userId := user, reference := reference, saleRef := none,
          purchaseId := none }
      .ok { st with stocks := stocks2,
                    movements := st.movements ++ [movement] }

/-! ## Product matcher (`inventory/mercadolibre.py`, lines 282–328)

The source's `_normalize` first applies Unicode NFD decomposition and strips
combining marks; on text without combining marks that step is the identity,
and the embedding models that fragment of Unicode (with ASCII
alphanumerics), which the matcher claims do not depend on. -/

/-- Split a character list into its maximal space-free words (Python's
`str.split()` on the cleaned text); `acc` holds the current word reversed. -/
def wordsAux : List Char → List Char → List (List Char)
  | [], acc => if acc = [] then [] else [acc.reverse]
  | c :: rest, acc =>
      if c = ' ' then
        if acc = [] then wordsAux rest []
        else acc.reverse :: wordsAux rest []
      else wordsAux rest (c :: acc)

/-- The words of a character list. -/
def wordsOf (cs : List Char) : List (List Char) := wordsAux cs []

/-- Join words with single spaces (Python's `" ".join(...)`). -/
def joinWords : List (List Char) → List Char
  | [] => []
  | w :: ws =>
      match ws with
      | [] => w
      | _ :: _ => w ++ ' ' :: joinWords ws

/-- `_normalize`: lowercase, replace non-alphanumeric characters by spaces,
collapse whitespace runs, trim. -/
def normalize (s : String) : String :=
  let cleaned : List Char := s.data.map (fun c =>
    if c.toLower.isAlphanum then c.toLower else ' ')
  String.mk (joinWords (wordsOf cleaned))

/-- `_tokenize`: normalized words of length > 1. -/
def tokenize (s : String) : List String :=
  ((wordsOf (normalize s).data).map String.mk).filter (fun t => 1 < t.length)

/-- One entry of `_build_product_index`: `(product, name_tokens,
group_tokens, name_norm)`, with the product represented by its id and name. -/
structure IndexEntry where
  pid : Nat
  name : String
  nameTokens : List String
  groupTokens : List String
  nameNorm : String
  deriving Repr, DecidableEq

/-- `_build_product_index` over the known `Product` rows. -/
def buildProductIndex (products : List (Nat × ProductInfo)) : List IndexEntry :=
  products.map (fun e =>
    { pid := e.1, name := e.2.name, nameTokens := tokenize e.2.name,
      groupTokens := tokenize e.2.group, nameNorm := normalize e.2.name })

/-- Python's substring test `needle in hay` on character lists. -/
def charsContain (hay needle : List Char) : Bool :=
  needle.isPrefixOf hay ||
    match hay with
    | [] => false
    | _ :: t => charsContain t needle

/-- Python's substring test `needle in hay` on strings. -/
def strContains (hay needle : String) : Bool :=
  charsContain hay.data needle.data

/-- The candidate score of step 3: `|titleTokens ∩ nameTokens| /
max(|nameTokens|, 1)`, plus `0.25` when the candidate has group tokens at
least one of which appears in the title tokens.  `titleTokens` is the
deduplicated title token list (the source's `set`); Python's float
arithmetic is modelled by exact rationals, and the bonus case is written as
the single exact fraction `(4·overlap + den)/(4·den) = overlap/den + 1/4`. -/
def scoreOf (titleTokens : List String) (e : IndexEntry) : ℚ :=
  let overlapName := (titleTokens.filter (fun t => e.nameTokens.contains t)).length
  let den := max e.nameTokens.length 1
  if e.groupTokens ≠ [] ∧ titleTokens.any (fun t => e.groupTokens.contains t) then
    mkRat (4 * overlapName + den) (4 * den)
  else mkRat overlapName den

/-- Whether a candidate passes the group gate of step 1 (no group tokens, or
some group token among the title tokens). -/
def passesGroupGate (titleTokens : List String) (e : IndexEntry) : Bool :=
  e.groupTokens = [] || titleTokens.any (fun t => e.groupTokens.contains t)

/-- The candidate loop of `_match_product`, carrying `best_score` and
`best`.  Candidates with no name tokens are skipped; gated candidates are
skipped; a surviving candidate whose nonempty normalized name is a substring
of the normalized title returns immediately; otherwise the best strictly
greater score wins, and the final best is returned only at score ≥ 0.3. -/
def matchGo (titleNorm : String) (titleTokens : List String) :
    List IndexEntry → ℚ → Option IndexEntry → Option Nat × String
  | [], bestScore, best =>
      if mkRat 3 10 ≤ bestScore then
        match best with
        | some e => (some e.pid, e.name)
        | none => (none, "")
      else (none, "")
  | e :: rest, bestScore, best =>
      if e.nameTokens = [] then matchGo titleNorm titleTokens rest bestScore best
      else if ¬ passesGroupGate titleTokens e then
        matchGo titleNorm titleTokens rest bestScore best
      else if e.nameNorm ≠ "" ∧ strContains titleNorm e.nameNorm then
        (some e.pid, e.name)
      else
        let score := scoreOf titleTokens e
        if bestScore < score then matchGo titleNorm titleTokens rest score (some e)
        else matchGo titleNorm titleTokens rest bestScore best

/-- `_match_product(title, product_index)`: returns the matched product id
(or `none`) and the matched name string. -/
def matchProduct (title : String) (index : List IndexEntry) : Option Nat × String :=
  matchGo (normalize title) (tokenize title).dedup index 0 none

/-! ## MercadoLibre reconciliation engine (`inventory/mercadolibre.py`)

Network interaction is modelled by an environment `Env` supplying each
remote endpoint's response; `none` for a response models a non-2xx reply,
which `_request`/`urlopen` surface as a raised `HTTPError`.  Timestamps are
integers (`Env.now` is `timezone.now()`). -/

/-- Errors that can propagate out of a sync pass: a raised HTTP error from
`_request`, or a raised `StockError` from the ledger. -/
inductive RaisedError where
  | http
  | stock (e : StockError)
  deriving Repr, DecidableEq

/-- A `MercadoLibreItem` row. -/
structure MlItemRec where
  itemId : String
  title : String
  status : String
  permalink : String
  availableQuantity : Int
  productId : Option Nat
  matchedName : String
  lastSoldAt : Option Int
  unitsSold30d : Int
  deriving Repr, DecidableEq

/-- A `Sale` row as created by `sync_order` (the sale's FK links are
modelled through its unique `reference`). -/
structure SaleRec where
  warehouse : Nat
  total : Int
  reference : String
  mlOrderId : String
  mlCommissionTotal : Int
  mlTaxTotal : Int
  userId : Nat
  deriving Repr, DecidableEq

/-- A `SaleItem` row as created by `sync_order`; `quantity` is in hundredths
(the order's integer quantity times 100). -/
structure SaleItemRec where
  saleReference : String
  productId : Nat
  quantity : Int
  unitPrice : Int
  discountPercent : Int
  finalUnitPrice : Int
  lineTotal : Int
  vatPercent : Int
  deriving Repr, DecidableEq

/-- The database state the reconciliation engine touches: the ledger tables
plus warehouses (id and `type` string), listings, sales and sale lines. -/
structure DbState where
  ledger : LedgerState
  warehouses : List (Nat × String)
  mlItems : List MlItemRec
  sales : List SaleRec
  saleItems : List SaleItemRec
  deriving Repr, DecidableEq

/-- `MercadoLibreItem.objects.filter(item_id=...).first()`. -/
def lookupMlItem (items : List MlItemRec) (iid : String) : Option MlItemRec :=
  items.find? (fun r => r.itemId = iid)

/-- The net effect of the `update_or_create` calls in both
`sync_items_and_stock` (which passes `product`/`matched_name` read back from
the existing row, leaving them unchanged) and `sync_order`'s fallback (whose
defaults omit them): detail fields are overwritten, the product mapping and
matched name of an existing row are untouched, and a new row starts
unmapped. -/
def upsertItemDetails (items : List MlItemRec) (iid title : String)
    (available : Int) (status permalink : String) : List MlItemRec :=
  match items.find? (fun r => r.itemId = iid) with
  | some _ => items.map (fun r =>
      if r.itemId = iid then
        { r with title := title, availableQuantity := available,
                 status := status, permalink := permalink }
      else r)
  | none =>
      items ++
        [{ itemId := iid, title := title, status := status,
           permalink := permalink, availableQuantity := available,
           productId := none, matchedName := "", lastSoldAt := none,
           unitsSold30d := 0 }]

/-- `MercadoLibreItem.objects.filter(item_id=...).update(last_sold_at=...,
units_sold_30d=...)`: updates existing rows only. -/
def updateItemSales (items : List MlItemRec) (iid : String)
    (lastSold : Option Int) (units : Int) : List MlItemRec :=
  items.map (fun r =>
    if r.itemId = iid then { r with lastSoldAt := lastSold, unitsSold30d := units }
    else r)

/-- `Warehouse.objects.filter(type=MERCADOLIBRE).first()`. -/
def mlWarehouse (db : DbState) : Option Nat :=
  (db.warehouses.find? (fun w => w.2 = "MERCADOLIBRE")).map (·.1)

/-- The product mapping the listings table stores for a remote item id. -/
def productOf (db : DbState) (iid : String) : Option Nat :=
  ((lookupMlItem db.mlItems iid).map (·.productId)).getD none

/-- Response of `/items/{id}`. -/
structure ItemDetail where
  title : String
  status : String
  permalink : String
  availableQuantity : Int
  deriving Repr, DecidableEq

/-- One entry of an order's `order_items`: the remote item id, the integer
quantity, and the unit price in cents. -/
structure OrderLine where
  itemId : String
  quantity : Int
  unitPrice : Int
  deriving Repr, DecidableEq

/-- One entry of an order's payments (`fee_amount`, `taxes_amount`, cents). -/
structure Payment where
  feeAmount : Int
  taxesAmount : Int
  deriving Repr, DecidableEq

/-- Response of `/orders/{id}`. -/
structure OrderData where
  status : String
  totalAmount : Int
  lines : List OrderLine
  payments : List Payment
  deriving Repr, DecidableEq

/-- Response of the token refresh endpoint (`_token_request` never raises:
HTTP errors come back as payloads, so missing fields model both error
payloads and absent keys; `expiresIn` is `int(... or 0)`). -/
structure RefreshResp where
  accessToken : Option String
  refreshToken : Option String
  expiresIn : Int
  deriving Repr, DecidableEq

/-- The remote marketplace and process environment for one sync pass.
`itemSearch`/`orderSearch` are the id streams the paginated searches walk;
`itemSales30d` is the `item_sales` aggregate of `get_orders_summary`
(item id, units sold, last-sold timestamp), whose computation no claim
depends on; `none` on a required endpoint models a raised `HTTPError`. -/
structure Env where
  now : Int
  refreshResp : RefreshResp
  profile : Option (String × String)
  itemSearch : Option (List String)
  syncMaxItems : Option Nat
  itemDetail : String → Option ItemDetail
  orderDetail : String → Option OrderData
  orderPayments : String → Option (List Payment)
  orderSearch : Option (List String)
  maxOrders : Nat
  itemSales30d : Option (List (String × Int × Option Int))

/-- The `MercadoLibreConnection` columns the engine reads and writes. -/
structure MlConnection where
  accessToken : String
  refreshToken : String
  expiresAt : Option Int
  mlUserId : String
  nickname : String
  lastSyncAt : Option Int
  deriving Repr, DecidableEq

/-- `get_valid_access_token` (source lines 116–127): empty token is passed
through; a token whose stored expiry is within 120 seconds of now is
refreshed in place (`refreshed.get(k, current)` keeps the current value when
the response lacks the key; a nonzero `expires_in` re-derives the expiry). -/
def getValidAccessToken (env : Env) (conn : MlConnection) : MlConnection × String :=
  if conn.accessToken = "" then (conn, "")
  else
    let doRefresh : Bool :=
      match conn.expiresAt with
      | some t => decide (t - 120 ≤ env.now)
      | none => false
    if doRefresh then
      let c : MlConnection :=
        { conn with
          accessToken := env.refreshResp.accessToken.getD conn.accessToken,
          refreshToken := env.refreshResp.refreshToken.getD conn.refreshToken,
          expiresAt :=
            if env.refreshResp.expiresIn ≠ 0 then
              some (env.now + env.refreshResp.expiresIn)
            else conn.expiresAt }
      (c, c.accessToken)
    else (conn, conn.accessToken)

/-- The page loop of `get_item_ids` (source lines 130–151): pages of 50 ids,
stopping on a short page, or truncating when a caller cap is reached.  The
loop is written with structural recursion on a page-count fuel; the fuel
supplied by `collectItemPages` always outlasts the pages (each round drops
50 ids), so the fuel-exhausted base case is unreachable. -/
def collectItemPagesGo : Nat → List String → List String → Option Nat →
    List String × Bool
  | 0, _, acc, _ => (acc, false)
  | fuel + 1, remaining, acc, maxItems =>
      match maxItems with
      | some m =>
          if m ≤ (acc ++ remaining.take 50).length then
            ((acc ++ remaining.take 50).take m, true)
          else if (remaining.take 50).length < 50 then
            (acc ++ remaining.take 50, false)
          else
            collectItemPagesGo fuel (remaining.drop 50)
              (acc ++ remaining.take 50) (some m)
      | none =>
          if (remaining.take 50).length < 50 then
            (acc ++ remaining.take 50, false)
          else
            collectItemPagesGo fuel (remaining.drop 50)
              (acc ++ remaining.take 50) none

/-- See `collectItemPagesGo`. -/
def collectItemPages (remaining acc : List String) (maxItems : Option Nat) :
    List String × Bool :=
  collectItemPagesGo (remaining.length / 50 + 1) remaining acc maxItems

/-- The page loop of `get_recent_order_ids` (source lines 235–263): pages of
50, keeping nonempty ids, stopping on a short page or once `max_orders` ids
are collected, then truncated to `max_orders`.  Fuel as in
`collectItemPagesGo`. -/
def collectOrderPagesGo : Nat → List String → List String → Nat → List String
  | 0, _, acc, _ => acc
  | fuel + 1, remaining, acc, maxOrders =>
      if (remaining.take 50).length < 50 ∨
          maxOrders ≤
            (acc ++ (remaining.take 50).filter (fun oid => oid ≠ "")).length then
        acc ++ (remaining.take 50).filter (fun oid => oid ≠ "")
      else
        collectOrderPagesGo fuel (remaining.drop 50)
          (acc ++ (remaining.take 50).filter (fun oid => oid ≠ "")) maxOrders

/-- See `collectOrderPagesGo`. -/
def collectOrderPages (remaining acc : List String) (maxOrders : Nat) :
    List String :=
  collectOrderPagesGo (remaining.length / 50 + 1) remaining acc maxOrders

/-- `get_recent_order_ids` over the environment's order id stream. -/
def getRecentOrderIds (stream : List String) (maxOrders : Nat) : List String :=
  (collectOrderPages stream [] maxOrders).take maxOrders

/-- The counters accumulated by the item loop of `sync_items_and_stock`. -/
structure ItemCounters where
  total : Nat
  matched : Nat
  unmatched : Nat
  updatedStock : Nat
  deriving Repr, DecidableEq

/-- The per-item loop of `sync_items_and_stock` (source lines 348–387): for
each id, fetch the detail, read the existing listing's product mapping,
upsert the listing, and for mapped items mirror the remote
`available_quantity` into the marketplace warehouse via an
`allow_negative=True` adjustment when the delta is nonzero.  The loop is not
wrapped in a transaction, so a raised error leaves the work done so far in
place. -/
def syncItemsLoop (env : Env) (user : Nat) (mlWh : Option Nat) :
    List String → DbState → ItemCounters →
    DbState × ItemCounters × Option RaisedError
  | [], db, cnt => (db, cnt, none)
  | iid :: rest, db, cnt =>
      match env.itemDetail iid with
      | none => (db, cnt, some .http)
      | some item =>
          let product : Option Nat := productOf db iid
          let db1 : DbState :=
            { db with mlItems := (upsertItemDetails db.mlItems iid item.title
                item.availableQuantity item.status item.permalink) }
          let cnt1 : ItemCounters := { cnt with total := cnt.total + 1 }
          match product with
          | some pid =>
              let cnt2 : ItemCounters := { cnt1 with matched := cnt1.matched + 1 }
              match mlWh with
              | some wh =>
                  let current := db1.ledger.stockQty pid wh
                  let desired := item.availableQuantity * 100
                  let diff := desired - current
                  if diff = 0 then syncItemsLoop env user mlWh rest db1 cnt2
                  else
                    match registerAdjustment db1.ledger pid wh diff user none
                        ("Sync ML " ++ iid) true with
                    | .ok l =>
                        syncItemsLoop env user mlWh rest { db1 with ledger := l }
                          { cnt2 with updatedStock := cnt2.updatedStock + 1 }
                    | .error e => (db1, cnt2, some (.stock e))
              | none => syncItemsLoop env user mlWh rest db1 cnt2
          | none =>
              syncItemsLoop env user mlWh rest db1
                { cnt1 with unmatched := cnt1.unmatched + 1 }

/-- The aggregate result of `sync_items_and_stock` (the source carries the
truncation flag inside the metrics dict). -/
structure SyncResult where
  totalItems : Nat
  matched : Nat
  unmatched : Nat
  updatedStock : Nat
  truncated : Bool
  deriving Repr, DecidableEq

/-- `sync_items_and_stock` (source lines 331–403).  Resolves a token
(refreshing if needed), fills in the account profile when missing, walks the
paginated item ids, runs the item loop, stores the 30-day sale velocity per
listing from the orders summary, and stamps the connection.  The final
state is returned even when a raised error aborts the pass partway. -/
def syncItemsAndStock (env : Env) (db : DbState) (conn : MlConnection)
    (user : Nat) : DbState × MlConnection × Except RaisedError SyncResult :=
  let conn1 := (getValidAccessToken env conn).1
  let token := (getValidAccessToken env conn).2
  if token = "" then
    (db, conn1, .ok { totalItems := 0, matched := 0, unmatched := 0,
                      updatedStock := 0, truncated := false })
  else
    let step : Except RaisedError MlConnection :=
      if conn1.mlUserId = "" then
        match env.profile with
        | none => .error RaisedError.http
        | some (pid, nick) => .ok { conn1 with mlUserId := pid, nickname := nick }
      else .ok conn1
    match step with
    | .error e => (db, conn1, .error e)
    | .ok conn2 =>
        match env.itemSearch with
        | none => (db, conn2, .error .http)
        | some stream =>
            let itemIds := (collectItemPages stream [] env.syncMaxItems).1
            let truncated := (collectItemPages stream [] env.syncMaxItems).2
            let mlWh := mlWarehouse db
            let loopOut := syncItemsLoop env user mlWh itemIds db
              { total := 0, matched := 0, unmatched := 0, updatedStock := 0 }
            let db1 := loopOut.1
            let cnt := loopOut.2.1
            let err := loopOut.2.2
            match err with
            | some e => (db1, conn2, .error e)
            | none =>
                match env.itemSales30d with
                | none => (db1, conn2, .error .http)
                | some sales =>
                    let items2 := sales.foldl
                      (fun its s => updateItemSales its s.1 s.2.2 s.2.1)
                      db1.mlItems
                    let db2 := { db1 with mlItems := items2 }
                    let conn3 := { conn2 with lastSyncAt := some env.now }
                    (db2, conn3,
                     .ok { totalItems := cnt.total, matched := cnt.matched,
                           unmatched := cnt.unmatched,
                           updatedStock := cnt.updatedStock,
                           truncated := truncated })

/-- A resolved order line: product id, integer quantity, unit price (cents)
and the product's VAT rate. -/
abbrev ResolvedLine := Nat × Int × Int × Int

/-- The line-resolution loop of `sync_order` (source lines 424–455): skip
non-positive quantities; take the product from the cached listing mapping;
when unmapped (and the item id is nonempty), fetch the item detail and
upsert the listing — without resolving a product — then drop the line.  The
listing upserts persist even when a later fetch raises. -/
def resolveLinesLoop (env : Env) :
    List OrderLine → DbState → List ResolvedLine →
    DbState × List ResolvedLine × Option RaisedError
  | [], db, acc => (db, acc, none)
  | line :: rest, db, acc =>
      if line.quantity ≤ 0 then resolveLinesLoop env rest db acc
      else
        let product : Option Nat :=
          if line.itemId ≠ "" then productOf db line.itemId else none
        if product = none ∧ line.itemId ≠ "" then
          match env.itemDetail line.itemId with
          | none => (db, acc, some .http)
          | some d =>
              let db1 : DbState :=
                { db with mlItems := (upsertItemDetails db.mlItems line.itemId
                    d.title d.availableQuantity d.status d.permalink) }
              resolveLinesLoop env rest db1 acc
        else
          match product with
          | none => resolveLinesLoop env rest db acc
          | some pid =>
              let vat := db.ledger.vatPercentOf pid
              resolveLinesLoop env rest db
                (acc ++ [(pid, line.quantity, line.unitPrice, vat)])

/-- Commission and tax totals over an order's payments:
`sum(|fee_amount|)` and `sum(|taxes_amount|)` (the trailing
`quantize(0.01)` is the identity on cent values). -/
def paymentTotals (ps : List Payment) : Int × Int :=
  (ps.foldl (fun a p => a + |p.feeAmount|) 0,
   ps.foldl (fun a p => a + |p.taxesAmount|) 0)

/-- One database write of `sync_order`'s ingestion phase.  The source
performs these writes without an enclosing `transaction.atomic` (unlike
every `services.py` operation), so each write commits individually: if the
write after a prefix raises, exactly that prefix persists. -/
inductive DbWrite where
  | createSale (s : SaleRec)
  | createSaleItem (it : SaleItemRec)
  | exitWrite (productId : Nat) (quantity : Int) (user : Nat)
      (reference : String) (salePrice : Int) (vatPercent : Int)
      (warehouse : Nat)
  deriving Repr, DecidableEq

/-- Apply one ingestion write.  `exitWrite` is `services.register_exit` with
`allow_negative=True`, itself atomic (its own failure rolls back only
itself — unreachable here since resolved quantities are positive). -/
def applyWrite (db : DbState) : DbWrite → DbState
  | .createSale s => { db with sales := db.sales ++ [s] }
  | .createSaleItem it => { db with saleItems := db.saleItems ++ [it] }
  | .exitWrite pid q user ref price vat wh =>
      match registerExit db.ledger pid wh q user ref true (some price)
          (some vat) (some ref) with
      | .ok l => { db with ledger := l }
      | .error _ => db

/-- Apply a sequence of ingestion writes in order. -/
def applyWrites (db : DbState) (ws : List DbWrite) : DbState :=
  ws.foldl applyWrite db

/-- The ingestion write sequence of `sync_order` (source lines 476–509): the
sale record first, then per resolved line one sale line and one ledger exit
against the marketplace warehouse.  `quantity` converts integer units to
hundredths; `line_total = unit_price * quantity` is exact in cents. -/
def ingestWrites (reference : String) (mlWh user : Nat)
    (totalAmount feeTotal taxTotal : Int) (orderId : String)
    (matched : List ResolvedLine) : List DbWrite :=
  DbWrite.createSale
    { warehouse := mlWh, total := totalAmount, reference := reference,
      mlOrderId := orderId, mlCommissionTotal := feeTotal,
      mlTaxTotal := taxTotal, userId := user } ::
  matched.flatMap (fun m =>
    [DbWrite.createSaleItem
       { saleReference := reference, productId := m.1, quantity := 100 * m.2.1,
         unitPrice := m.2.2.1, discountPercent := 0,
         finalUnitPrice := m.2.2.1, lineTotal := m.2.2.1 * m.2.1,
         vatPercent := m.2.2.2 },
     DbWrite.exitWrite m.1 (100 * m.2.1) user reference m.2.2.1 m.2.2.2 mlWh])

/-- The payments list `sync_order` totals fees and taxes over: the order's
embedded payments, or — when empty — the payments sub-resource fetch, whose
failure is caught and treated as an empty list (source lines 463–472). -/
def orderPaymentsOf (env : Env) (oid : String) (order : OrderData) :
    List Payment :=
  if order.payments ≠ [] then order.payments
  else
    match env.orderPayments oid with
    | none => []
    | some ps => ps

/-- The full ingestion write sequence of one `sync_order` call. -/
def syncOrderWrites (env : Env) (oid : String) (order : OrderData)
    (mlWh user : Nat) (matched : List ResolvedLine) : List DbWrite :=
  ingestWrites ("ML ORDER " ++ oid) mlWh user order.totalAmount
    (paymentTotals (orderPaymentsOf env oid order)).1
    (paymentTotals (orderPaymentsOf env oid order)).2 oid matched

/-- `sync_order` (source lines 406–510).  Returns the persisted state, the
(possibly refreshed) connection, and either the source's `(ok, reason)` pair
or the raised error.  The order of checks follows the source: access token,
order fetch, cancelled/expired status, the `"ML ORDER <id>"` idempotency
reference, marketplace warehouse, line resolution, then the ingestion
writes. -/
def syncOrder (env : Env) (db : DbState) (conn : MlConnection)
    (orderId : String) (user : Nat) :
    DbState × MlConnection × Except RaisedError (Bool × String) :=
  let conn1 := (getValidAccessToken env conn).1
  let token := (getValidAccessToken env conn).2
  if token = "" then (db, conn1, .ok (false, "missing_access_token"))
  else
    match env.orderDetail orderId with
    | none => (db, conn1, .error .http)
    | some order =>
        if order.status = "cancelled" ∨ order.status = "expired" then
          (db, conn1, .ok (false, "ignored_status"))
        else
          let reference := "ML ORDER " ++ orderId
          if db.sales.any (fun s => s.reference = reference) then
            (db, conn1, .ok (false, "already_processed"))
          else
            match mlWarehouse db with
            | none => (db, conn1, .ok (false, "missing_warehouse"))
            | some mlWh =>
                let resolved := resolveLinesLoop env order.lines db []
                let db1 := resolved.1
                let matched := resolved.2.1
                let err := resolved.2.2
                match err with
                | some e => (db1, conn1, .error e)
                | none =>
                    if matched = [] then (db1, conn1, .ok (false, "no_matches"))
                    else
                      (applyWrites db1
                        (syncOrderWrites env orderId order mlWh user matched),
                       conn1, .ok (true, "ok"))

/-- `reasons[reason] = reasons.get(reason, 0) + 1` on an association list. -/
def incrReason (rs : List (String × Nat)) (r : String) : List (String × Nat) :=
  match rs.find? (fun e => e.1 = r) with
  | some _ => rs.map (fun e => if e.1 = r then (e.1, e.2 + 1) else e)
  | none => rs ++ [(r, 1)]

/-- The per-order loop of `sync_recent_orders` (source lines 273–278).  The
source has no try/except around `sync_order`: a returned failure reason is
counted, but a raised error propagates, aborting the remaining orders while
the state committed so far stays. -/
def syncOrdersLoop (env : Env) (user : Nat) :
    List String → DbState → MlConnection → Nat → List (String × Nat) →
    DbState × MlConnection × Nat × List (String × Nat) × Option RaisedError
  | [], db, conn, created, reasons => (db, conn, created, reasons, none)
  | oid :: rest, db, conn, created, reasons =>
      match syncOrder env db conn oid user with
      | (db1, conn1, .error e) => (db1, conn1, created, reasons, some e)
      | (db1, conn1, .ok (ok, reason)) =>
          if ok then syncOrdersLoop env user rest db1 conn1 (created + 1) reasons
          else syncOrdersLoop env user rest db1 conn1 created
            (incrReason reasons reason)

/-- The result dictionary of `sync_recent_orders`. -/
structure BatchResult where
  total : Nat
  created : Nat
  reasons : List (String × Nat)
  deriving Repr, DecidableEq

/-- `sync_recent_orders` (source lines 266–279): resolve a token, collect
the recent order ids, and run `sync_order` on each.  A raised error from any
call propagates (`.error`), losing the counters but keeping the state
committed for the already-processed orders. -/
def syncRecentOrders (env : Env) (db : DbState) (conn : MlConnection)
    (user : Nat) : DbState × MlConnection × Except RaisedError BatchResult :=
  let conn1 := (getValidAccessToken env conn).1
  let token := (getValidAccessToken env conn).2
  if token = "" then
    (db, conn1, .ok { total := 0, created := 0,
                      reasons := [("missing_access_token", 1)] })
  else
    match env.orderSearch with
    | none => (db, conn1, .error .http)
    | some stream =>
        let orderIds := getRecentOrderIds stream env.maxOrders
        let loopOut := syncOrdersLoop env user orderIds db conn1 0 []
        let db1 := loopOut.1
        let conn2 := loopOut.2.1
        let created := loopOut.2.2.1
        let reasons := loopOut.2.2.2.1
        let err := loopOut.2.2.2.2
        match err with
        | some e => (db1, conn2, .error e)
        | none =>
            (db1, conn2, .ok { total := orderIds.length, created := created,
                               reasons := reasons })

/-! ## Concrete fixtures

Small concrete states and environments used to witness the theorems and to
exhibit counterexamples. -/

/-- One request of an Entry sequence (C2): quantity, gross unit cost, and
optional VAT rate, as passed to `register_entry`. -/
structure EntryReq where
  quantity : Int
  unitCost : Int
  vatPercent : Option Int
  deriving Repr, DecidableEq

/-- Run a sequence of `register_entry` calls on one (product, warehouse),
stopping at the first error. -/
def runEntries (st : LedgerState) (p w u : Nat) :
    List EntryReq → Except StockError LedgerState
  | [] => .ok st
  | r :: rs =>
      match registerEntry st p w r.quantity r.unitCost u "" r.vatPercent
          none none with
      | .error e => .error e
      | .ok st1 => runEntries st1 p w u rs

/-- A product whose name normalizes to a single 1-character token (so its
token list is empty) but whose normalized name is nonempty. -/
def prodInfoA : ProductInfo :=
  { name := "a", group := "", avgCost := 0, vatPercent := 0,
    defaultSupplier := none }

/-- The index entry built for `prodInfoW` ("Shampoo X"). -/
def entryW : IndexEntry :=
  { pid := 1, name := "Shampoo X", nameTokens := tokenize "Shampoo X",
    groupTokens := tokenize "", nameNorm := normalize "Shampoo X" }

/-- A product with a name sharing one of three tokens with test titles. -/
def prodInfoCrema : ProductInfo :=
  { name := "crema corporal nutritiva", group := "", avgCost := 0,
    vatPercent := 0, defaultSupplier := none }

/-- Two products tying on score 1/2 against the title "crema facial". -/
def prodInfoC1 : ProductInfo :=
  { name := "crema corporal", group := "", avgCost := 0, vatPercent := 0,
    defaultSupplier := none }

/-- See `prodInfoC1`. -/
def prodInfoC2 : ProductInfo :=
  { name := "crema sola", group := "", avgCost := 0, vatPercent := 0,
    defaultSupplier := none }

/-- A product: "Shampoo X", no group, basis 4.00, VAT 0. -/
def prodInfoW : ProductInfo :=
  { name := "Shampoo X", group := "", avgCost := 400, vatPercent := 0,
    defaultSupplier := none }

/-- Ledger with 10.00 units of product 1 in warehouse 2. -/
def ledgerW : LedgerState :=
  { stocks := [((1, 2), 1000)], products := [(1, prodInfoW)],
    supplierProducts := [], movements := [] }

/-- Ledger with product 1 and no stock rows. -/
def ledgerZ : LedgerState :=
  { stocks := [], products := [(1, prodInfoW)], supplierProducts := [],
    movements := [] }

/-- Ledger with a negative total quantity (reachable through
`allow_negative` exits): −10.00 of product 1 in warehouse 10, basis 5.00. -/
def ledgerNeg : LedgerState :=
  { stocks := [((1, 10), -1000)],
    products := [(1, { name := "P", group := "", avgCost := 500,
                       vatPercent := 0, defaultSupplier := none })],
    supplierProducts := [], movements := [] }

/-- A listing for remote item `MLA1` mapped to product 1. -/
def itemW : MlItemRec :=
  { itemId := "MLA1", title := "Shampoo X 500ml", status := "active",
    permalink := "", availableQuantity := 10, productId := some 1,
    matchedName := "Shampoo X", lastSoldAt := none, unitsSold30d := 0 }

/-- Database with the marketplace warehouse 2, a common warehouse 3, the
listing `MLA1`, and no sales. -/
def dbW : DbState :=
  { ledger := ledgerW, warehouses := [(2, "MERCADOLIBRE"), (3, "COMUN")],
    mlItems := [itemW], sales := [], saleItems := [] }

/-- A connection with a valid, non-expiring token. -/
def connW : MlConnection :=
  { accessToken := "tok", refreshToken := "", expiresAt := none,
    mlUserId := "u", nickname := "", lastSyncAt := none }

/-- Remote order 77: paid, one line of 2 × `MLA1` at 5.00, one payment with
fee 0.50. -/
def orderW : OrderData :=
  { status := "paid", totalAmount := 1000,
    lines := [{ itemId := "MLA1", quantity := 2, unitPrice := 500 }],
    payments := [{ feeAmount := 50, taxesAmount := 0 }] }

/-- Environment serving order 77 and nothing else. -/
def envW : Env :=
  { now := 0,
    refreshResp := { accessToken := none, refreshToken := none, expiresIn := 0 },
    profile := none, itemSearch := none, syncMaxItems := none,
    itemDetail := fun _ => none,
    orderDetail := fun oid => if oid = "77" then some orderW else none,
    orderPayments := fun _ => none, orderSearch := some ["77"],
    maxOrders := 200, itemSales30d := none }

/-- Database with no listings: the matcher would resolve remote titles
against product 1, but neither sync path ever calls it. -/
def dbC4 : DbState :=
  { ledger := ledgerW, warehouses := [(2, "MERCADOLIBRE"), (3, "COMUN")],
    mlItems := [], sales := [], saleItems := [] }

/-- Environment with one unmapped catalog item `MLX` (title "Shampoo X
500ml") and one order 88 containing it. -/
def envC4 : Env :=
  { now := 0,
    refreshResp := { accessToken := none, refreshToken := none, expiresIn := 0 },
    profile := none, itemSearch := some ["MLX"], syncMaxItems := none,
    itemDetail := fun iid =>
      if iid = "MLX" then
        some { title := "Shampoo X 500ml", status := "active",
               permalink := "", availableQuantity := 4 }
      else none,
    orderDetail := fun oid =>
      if oid = "88" then
        some { status := "paid", totalAmount := 500,
               lines := [{ itemId := "MLX", quantity := 1, unitPrice := 500 }],
               payments := [] }
      else none,
    orderPayments := fun _ => none, orderSearch := some ["88"],
    maxOrders := 200, itemSales30d := some [] }

/-- Environment for a batch of two orders where fetching order 1 raises an
HTTP error and order 2 is the processable `orderW`. -/
def envC5 : Env :=
  { now := 0,
    refreshResp := { accessToken := none, refreshToken := none, expiresIn := 0 },
    profile := none, itemSearch := none, syncMaxItems := none,
    itemDetail := fun _ => none,
    orderDetail := fun oid => if oid = "2" then some orderW else none,
    orderPayments := fun _ => none, orderSearch := some ["1", "2"],
    maxOrders := 200, itemSales30d := none }

/-- An existing sale carrying the idempotency reference of order 77. -/
def saleC1 : SaleRec :=
  { warehouse := 2, total := 1000, reference := "ML ORDER 77",
    mlOrderId := "77", mlCommissionTotal := 0, mlTaxTotal := 0, userId := 9 }

/-- Database `dbW` with the order-77 sale already recorded. -/
def dbC1 : DbState :=
  { dbW with sales := [saleC1] }

/-- Environment serving order 77 in `cancelled` status. -/
def envC1 : Env :=
  { envW with orderDetail := fun oid =>
      if oid = "77" then some { orderW with status := "cancelled" }
      else none }

end Erp

/-! ## Theorems -/

namespace Erp

theorem getOrCreateStock_snd (st : LedgerState) (p w : Nat) :
    (getOrCreateStock st.stocks p w).2 = st.stockQty p w := by
  unfold getOrCreateStock LedgerState.stockQty LedgerState.lookupStock
  cases h : st.stocks.find? (fun e => e.1 = (p, w)) <;> simp [h]

theorem getOrCreateStock_find_self (s : List ((Nat × Nat) × Int)) (p w : Nat) :
    (getOrCreateStock s p w).1.find? (fun e => e.1 = (p, w)) =
      some ((p, w), (getOrCreateStock s p w).2) := by
  unfold getOrCreateStock
  cases h : s.find? (fun e => e.1 = (p, w)) with
  | none =>
      simp only
      rw [List.find?_append, h]
      simp
  | some e =>
      have he := List.find?_some h
      simp only [decide_eq_true_eq] at he
      simp only [h]
      exact congrArg some (Prod.ext he rfl)

theorem getOrCreateStock_find_other (s : List ((Nat × Nat) × Int))
    (p w p' w' : Nat) (h : (p', w') ≠ (p, w)) :
    (getOrCreateStock s p w).1.find? (fun e => e.1 = (p', w')) =
      s.find? (fun e => e.1 = (p', w')) := by
  unfold getOrCreateStock
  cases hf : s.find? (fun e => e.1 = (p, w)) with
  | none =>
      simp only
      rw [List.find?_append]
      cases hg : s.find? (fun e => e.1 = (p', w')) <;>
        simp [hg, Ne.symm h, h]
  | some e => simp [hf]

theorem find?_setStockQty_self (s : List ((Nat × Nat) × Int)) (p w : Nat)
    (q : Int) (e0 : (Nat × Nat) × Int)
    (h : s.find? (fun e => e.1 = (p, w)) = some e0) :
    (setStockQty s p w q).find? (fun e => e.1 = (p, w)) = some ((p, w), q) := by
  induction s with
  | nil => simp at h
  | cons a t ih =>
      by_cases ha : a.1 = (p, w)
      · simp [setStockQty, ha]
      · rw [List.find?_cons_of_neg _ (by simp [ha])] at h
        rw [setStockQty, List.map_cons, if_neg ha,
          List.find?_cons_of_neg _ (by simp [ha])]
        exact ih h

theorem find?_setStockQty_other (s : List ((Nat × Nat) × Int))
    (p w p' w' : Nat) (q : Int) (h : (p', w') ≠ (p, w)) :
    (setStockQty s p w q).find? (fun e => e.1 = (p', w')) =
      s.find? (fun e => e.1 = (p', w')) := by
  induction s with
  | nil => simp [setStockQty]
  | cons a t ih =>
      by_cases ha : a.1 = (p, w)
      · have hne : ¬ ((p, w) = (p', w')) := fun hh => h hh.symm
        rw [setStockQty, List.map_cons, if_pos ha,
          List.find?_cons_of_neg _
            (by simp only [decide_eq_true_eq]
                exact fun hh => hne (ha.symm.trans hh)),
          List.find?_cons_of_neg _
            (by simp only [decide_eq_true_eq]
                exact fun hh => hne (ha.symm.trans hh))]
        exact ih
      · rw [setStockQty, List.map_cons, if_neg ha]
        by_cases hb : a.1 = (p', w')
        · rw [List.find?_cons_of_pos _ (by simp [hb]),
            List.find?_cons_of_pos _ (by simp [hb])]
        · rw [List.find?_cons_of_neg _ (by simp [hb]),
            List.find?_cons_of_neg _ (by simp [hb])]
          exact ih

theorem stockQty_set_getOrCreate (s : List ((Nat × Nat) × Int)) (p w : Nat)
    (v : Int) :
    (((setStockQty (getOrCreateStock s p w).1 p w v).find?
        (fun e => e.1 = (p, w))).map (·.2)).getD 0 = v := by
  rw [find?_setStockQty_self _ _ _ _ _ (getOrCreateStock_find_self s p w)]
  rfl

theorem find?_set_getOrCreate_other (s : List ((Nat × Nat) × Int))
    (p w p' w' : Nat) (v : Int) (h : (p', w') ≠ (p, w)) :
    (setStockQty (getOrCreateStock s p w).1 p w v).find?
        (fun e => e.1 = (p', w')) = s.find? (fun e => e.1 = (p', w')) := by
  rw [find?_setStockQty_other _ _ _ _ _ _ h, getOrCreateStock_find_other _ _ _ _ _ h]

/-- Closed form of `register_exit`. -/
theorem registerExit_eq (st : LedgerState) (p w : Nat) (qty : Int) (u : Nat)
    (ref : String) (an : Bool) (sp vp : Option Int) (sr : Option String) :
    registerExit st p w qty u ref an sp vp sr =
      if qty ≤ 0 then .error .invalidMovement
      else if !an ∧ st.stockQty p w - qty < 0 then .error .negativeStock
      else .ok { st with
        stocks := setStockQty (getOrCreateStock st.stocks p w).1 p w
          (st.stockQty p w - qty),
        movements := st.movements ++
          [{ movementType := .exit, productId := p, quantity := qty,
             unitCost := st.avgCostOf p, salePrice := sp.getD 0,
             vatPercent := vp.getD 0, fromWarehouse := some w,
             toWarehouse := none, userId := u, reference := ref,
             saleRef := sr, purchaseId := none }] } := by
  simp only [registerExit, getOrCreateStock_snd]

/-- Closed form of `register_transfer`. -/
theorem registerTransfer_eq (st : LedgerState) (p src dst : Nat) (qty : Int)
    (u : Nat) (ref : String) (an : Bool) :
    registerTransfer st p src dst qty u ref an =
      if src = dst then .error .invalidMovement
      else if qty ≤ 0 then .error .invalidMovement
      else if !an ∧ st.stockQty p src - qty < 0 then .error .negativeStock
      else .ok { st with
        stocks := setStockQty (getOrCreateStock st.stocks p src).1 p src
          (st.stockQty p src - qty),
        movements := st.movements ++
          [{ movementType := .transfer, productId := p, quantity := qty,
             unitCost := st.avgCostOf p, salePrice := 0, vatPercent := 0,
             fromWarehouse := some src, toWarehouse := some dst,
             userId := u, reference := ref, saleRef := none,
             purchaseId := none }] } := by
  simp only [registerTransfer, getOrCreateStock_snd]

/-- C7: an exit fails with `InvalidMovement` exactly when the quantity is
non-positive; with `allowNegative=false` it fails with `NegativeStock`
exactly when the stored quantity minus the requested quantity would be
negative (for a valid positive quantity — `InvalidMovement` takes
precedence); otherwise it succeeds, decreases the source stock record by
exactly the requested quantity, and records the product's current cost
basis on the movement without modifying the product (failure returns no
state: the source's `transaction.atomic` rolls everything back). -/
theorem claim_C7 (st : LedgerState) (p w : Nat) (qty : Int) (u : Nat)
    (ref : String) (an : Bool) (sp vp : Option Int) (sr : Option String) :
    (registerExit st p w qty u ref an sp vp sr = .error .invalidMovement ↔
      qty ≤ 0) ∧
    (an = false →
      (registerExit st p w qty u ref an sp vp sr = .error .negativeStock ↔
        0 < qty ∧ st.stockQty p w - qty < 0)) ∧
    (0 < qty → (an = true ∨ 0 ≤ st.stockQty p w - qty) →
      ∃ st', registerExit st p w qty u ref an sp vp sr = .ok st' ∧
        st'.stockQty p w = st.stockQty p w - qty ∧
        st'.products = st.products ∧
        st'.avgCostOf p = st.avgCostOf p ∧
        st'.movements = st.movements ++
          [{ movementType := .exit, productId := p, quantity := qty,
             unitCost := st.avgCostOf p, salePrice := sp.getD 0,
             vatPercent := vp.getD 0, fromWarehouse := some w,
             toWarehouse := none, userId := u, reference := ref,
             saleRef := sr, purchaseId := none }]) := by
  rw [registerExit_eq]
  by_cases h1 : qty ≤ 0
  · rw [if_pos h1]
    refine ⟨by simp [h1], ?_, ?_⟩
    · intro _
      constructor
      · intro hh; simp at hh
      · intro ⟨hq, _⟩; omega
    · intro hq; exact absurd hq (by omega)
  · rw [if_neg h1]
    by_cases h2 : (!an) = true ∧ st.stockQty p w - qty < 0
    · rw [if_pos h2]
      refine ⟨?_, ?_, ?_⟩
      · constructor
        · intro hh; simp at hh
        · intro hh; exact absurd hh h1
      · intro _
        constructor
        · intro _; exact ⟨by omega, h2.2⟩
        · intro _; rfl
      · intro hq hok
        exfalso
        rcases hok with h | h
        · rw [h] at h2; simp at h2
        · exact absurd h2.2 (by omega)
    · rw [if_neg h2]
      refine ⟨?_, ?_, ?_⟩
      · constructor
        · intro hh; simp at hh
        · intro hh; exact absurd hh h1
      · intro han
        constructor
        · intro hh; simp at hh
        · intro ⟨_, hlt⟩
          refine absurd (⟨?_, hlt⟩ : (!an) = true ∧ _) h2
          rw [han]; rfl
      · intro hq hok
        exact ⟨_, rfl, stockQty_set_getOrCreate _ _ _ _, rfl, rfl, rfl⟩

/-- Witness for C7 at a concrete exit: stock 10.00, exit 3.00 with
`allowNegative=false` succeeds and leaves 7.00. -/
theorem claim_C7_witness :
    ((registerExit ledgerW 1 2 300 7 "" false none none none =
        .error .negativeStock ↔ 0 < (300 : Int) ∧ ledgerW.stockQty 1 2 - 300 < 0) ∧
     ∃ st', registerExit ledgerW 1 2 300 7 "" false none none none = .ok st' ∧
        st'.stockQty 1 2 = ledgerW.stockQty 1 2 - 300 ∧
        st'.products = ledgerW.products ∧
        st'.avgCostOf 1 = ledgerW.avgCostOf 1 ∧
        st'.movements = ledgerW.movements ++
          [{ movementType := .exit, productId := 1, quantity := 300,
             unitCost := ledgerW.avgCostOf 1, salePrice := (none : Option Int).getD 0,
             vatPercent := (none : Option Int).getD 0, fromWarehouse := some 2,
             toWarehouse := none, userId := 7, reference := "",
             saleRef := none, purchaseId := none }]) :=
  ⟨(claim_C7 ledgerW 1 2 300 7 "" false none none none).2.1 rfl,
   (claim_C7 ledgerW 1 2 300 7 "" false none none none).2.2 (by decide)
     (Or.inr (by decide))⟩

/-- C8: a transfer between distinct warehouses with positive quantity
succeeds exactly under the exit negative-stock rule; on success the source
record decreases by the quantity, no stock record at the destination
warehouse (or anywhere other than the source) is created or modified, the
product rows are untouched, and exactly one movement carrying both source
and destination is appended. -/
theorem claim_C8 (st : LedgerState) (p src dst : Nat) (qty : Int) (u : Nat)
    (ref : String) (an : Bool) (hne : src ≠ dst) (hq : 0 < qty) :
    ((∃ st', registerTransfer st p src dst qty u ref an = .ok st') ↔
      (an = true ∨ 0 ≤ st.stockQty p src - qty)) ∧
    (∀ st', registerTransfer st p src dst qty u ref an = .ok st' →
      st'.stockQty p src = st.stockQty p src - qty ∧
      (∀ p', st'.lookupStock p' dst = st.lookupStock p' dst) ∧
      (∀ p' w', (p', w') ≠ (p, src) →
        st'.lookupStock p' w' = st.lookupStock p' w') ∧
      st'.products = st.products ∧
      st'.avgCostOf p = st.avgCostOf p ∧
      st'.movements = st.movements ++
        [{ movementType := .transfer, productId := p, quantity := qty,
           unitCost := st.avgCostOf p, salePrice := 0, vatPercent := 0,
           fromWarehouse := some src, toWarehouse := some dst,
           userId := u, reference := ref, saleRef := none,
           purchaseId := none }]) := by
  rw [registerTransfer_eq, if_neg hne, if_neg (by omega : ¬ qty ≤ 0)]
  constructor
  · by_cases h2 : (!an) = true ∧ st.stockQty p src - qty < 0
    · rw [if_pos h2]
      constructor
      · intro ⟨st', hst'⟩; cases hst'
      · intro hok
        exfalso
        rcases hok with h | h
        · rw [h] at h2; exact absurd h2.1 (by simp)
        · exact absurd h2.2 (by omega)
    · rw [if_neg h2]
      constructor
      · intro _
        by_cases han : an = true
        · exact Or.inl han
        · refine Or.inr ?_
          have han' : an = false := by revert han; cases an <;> simp
          by_contra hlt
          exact h2 ⟨by rw [han']; rfl, by omega⟩
      · intro _; exact ⟨_, rfl⟩
  · intro st' hst'
    by_cases h2 : (!an) = true ∧ st.stockQty p src - qty < 0
    · rw [if_pos h2] at hst'; cases hst'
    · rw [if_neg h2] at hst'
      cases hst'
      refine ⟨?_, ?_, ?_, rfl, rfl, rfl⟩
      · exact stockQty_set_getOrCreate _ _ _ _
      · intro p'
        show ((setStockQty (getOrCreateStock st.stocks p src).1 p src
          (st.stockQty p src - qty)).find? (fun e => e.1 = (p', dst))).map (·.2) =
          (st.stocks.find? (fun e => e.1 = (p', dst))).map (·.2)
        rw [find?_set_getOrCreate_other _ _ _ _ _ _
          (by intro hh; exact hne (by injection hh with _ h2'; exact h2'.symm))]
      · intro p' w' hpe
        show ((setStockQty (getOrCreateStock st.stocks p src).1 p src
          (st.stockQty p src - qty)).find? (fun e => e.1 = (p', w'))).map (·.2) =
          (st.stocks.find? (fun e => e.1 = (p', w'))).map (·.2)
        rw [find?_set_getOrCreate_other _ _ _ _ _ _ hpe]

theorem lookupProduct_updateProduct_self (products : List (Nat × ProductInfo))
    (p : Nat) (f : ProductInfo → ProductInfo) :
    ((updateProduct products p f).find? (fun e => e.1 = p)).map (·.2) =
      ((products.find? (fun e => e.1 = p)).map (·.2)).map f := by
  induction products with
  | nil => simp [updateProduct]
  | cons a t ih =>
      by_cases ha : a.1 = p
      · rw [updateProduct, List.map_cons, if_pos ha,
          List.find?_cons_of_pos _ (by simp [ha]),
          List.find?_cons_of_pos _ (by simp [ha])]
        rfl
      · rw [updateProduct, List.map_cons, if_neg ha,
          List.find?_cons_of_neg _ (by simp [ha]),
          List.find?_cons_of_neg _ (by simp [ha])]
        exact ih

theorem totalStockQuantity_getOrCreate (s : List ((Nat × Nat) × Int))
    (p w : Nat) :
    totalStockQuantity (getOrCreateStock s p w).1 p = totalStockQuantity s p := by
  unfold getOrCreateStock
  cases h : s.find? (fun e => e.1 = (p, w)) with
  | some e => rfl
  | none =>
      simp only [totalStockQuantity, List.filter_append, List.map_append,
        List.sum_append]
      simp

/-- Closed form of `register_entry` without a supplier. -/
theorem registerEntry_none_eq (st : LedgerState) (p w : Nat) (qty cost : Int)
    (u : Nat) (ref : String) (vp : Option Int) (pur : Option Nat) :
    registerEntry st p w qty cost u ref vp none pur =
      if qty ≤ 0 then .error .invalidMovement
      else .ok { st with
        products := updateProduct st.products p (fun info =>
          if vp.isSome then
            { info with avgCost := entryCostBase cost (vp.getD 0),
                        vatPercent := vp.getD 0 }
          else { info with avgCost := entryCostBase cost (vp.getD 0) }),
        stocks := setStockQty (getOrCreateStock st.stocks p w).1 p w
          (st.stockQty p w + qty),
        movements := st.movements ++
          [{ movementType := .entry, productId := p, quantity := qty,
             unitCost := cost, salePrice := 0, vatPercent := vp.getD 0,
             fromWarehouse := none, toWarehouse := some w, userId := u,
             reference := ref, saleRef := none, purchaseId := pur }] } := by
  simp only [registerEntry, getOrCreateStock_snd]

/-- Effect of one successful supplier-less entry. -/
theorem registerEntry_ok_effect (st : LedgerState) (p w : Nat)
    (qty cost : Int) (u : Nat) (vp : Option Int) (hq : 0 < qty) :
    ∃ st', registerEntry st p w qty cost u "" vp none none = .ok st' ∧
      st'.stockQty p w = st.stockQty p w + qty ∧
      ((st.lookupProduct p).isSome = true →
        st'.avgCostOf p = entryCostBase cost (vp.getD 0)) ∧
      (st'.lookupProduct p).isSome = (st.lookupProduct p).isSome := by
  rw [registerEntry_none_eq, if_neg (by omega)]
  refine ⟨_, rfl, stockQty_set_getOrCreate _ _ _ _, ?_, ?_⟩
  · intro hsome
    simp only [LedgerState.avgCostOf, LedgerState.lookupProduct]
    rw [lookupProduct_updateProduct_self]
    unfold LedgerState.lookupProduct at hsome
    cases h : st.products.find? (fun e => e.1 = p) with
    | none => rw [h] at hsome; simp at hsome
    | some e => cases vp <;> simp
  · simp only [LedgerState.lookupProduct]
    rw [lookupProduct_updateProduct_self]
    cases h : st.products.find? (fun e => e.1 = p) <;> simp [h]

/-- Cumulative effect of a successful entry sequence. -/
theorem runEntries_effect (p w u : Nat) :
    ∀ (reqs : List EntryReq) (st : LedgerState),
    (∀ r ∈ reqs, 0 < r.quantity) →
    (st.lookupProduct p).isSome = true →
    ∃ st', runEntries st p w u reqs = .ok st' ∧
      st'.stockQty p w = st.stockQty p w + (reqs.map (·.quantity)).sum ∧
      (st'.lookupProduct p).isSome = true ∧
      (∀ rlast, reqs.getLast? = some rlast →
        st'.avgCostOf p = entryCostBase rlast.unitCost
          (rlast.vatPercent.getD 0)) ∧
      (reqs = [] → st' = st) := by
  intro reqs
  induction reqs with
  | nil =>
      intro st _ hsome
      exact ⟨st, rfl, by simp, hsome, by intro r h; simp at h, fun _ => rfl⟩
  | cons r rs ih =>
      intro st hpos hsome
      obtain ⟨st1, h1, hq1, havg1, hsome1⟩ :=
        registerEntry_ok_effect st p w r.quantity r.unitCost u r.vatPercent
          (hpos r (by simp))
      rw [hsome] at hsome1
      obtain ⟨st2, h2, hq2, hsome2, hlast2, hnil2⟩ :=
        ih st1 (fun x hx => hpos x (by simp [hx])) hsome1
      refine ⟨st2, ?_, ?_, hsome2, ?_, by intro h; cases h⟩
      · simp only [runEntries, h1]; exact h2
      · rw [hq2, hq1]; simp; ring
      · intro rlast hlast
        cases rs with
        | nil =>
            simp only [List.getLast?_singleton, Option.some.injEq] at hlast
            rw [hnil2 rfl, ← hlast]
            exact havg1 hsome
        | cons r2 rs2 =>
            rw [List.getLast?_cons_cons] at hlast
            exact hlast2 rlast hlast

/-- C2: a sequence of successful entries on one (product, warehouse)
starting from no stock ends with quantity equal to the sum of the entered
quantities, and the product's basis equal to the VAT-exclusive unit cost of
the most recent entry only (gross cost divided by `1 + vat/100`, rounded
half-up, when `vat > 0`) — last-purchase costing, not a weighted average. -/
theorem claim_C2 (st : LedgerState) (p w u : Nat) (reqs : List EntryReq)
    (rlast : EntryReq)
    (hpos : ∀ r ∈ reqs, 0 < r.quantity)
    (hprod : (st.lookupProduct p).isSome = true)
    (hstart : st.stockQty p w = 0)
    (hlast : reqs.getLast? = some rlast) :
    ∃ st', runEntries st p w u reqs = .ok st' ∧
      st'.stockQty p w = (reqs.map (·.quantity)).sum ∧
      st'.avgCostOf p = entryCostBase rlast.unitCost
        (rlast.vatPercent.getD 0) := by
  obtain ⟨st', hrun, hq, _, hl, _⟩ := runEntries_effect p w u reqs st hpos hprod
  exact ⟨st', hrun, by rw [hq, hstart, zero_add], hl rlast hlast⟩

/-- Witness for C2: the spec's own example — 10 units at 5.00 then 10 units
at 7.00 (0% VAT) end at quantity 20.00 and basis 7.00. -/
theorem claim_C2_witness :
    ∃ st', runEntries ledgerZ 1 2 7
        [⟨1000, 500, some 0⟩, ⟨1000, 700, some 0⟩] = .ok st' ∧
      st'.stockQty 1 2 =
        (([⟨1000, 500, some 0⟩, ⟨1000, 700, some 0⟩] :
          List EntryReq).map (·.quantity)).sum ∧
      st'.avgCostOf 1 = entryCostBase 700 ((some (0 : Int)).getD 0) :=
  claim_C2 ledgerZ 1 2 7 [⟨1000, 500, some 0⟩, ⟨1000, 700, some 0⟩]
    ⟨1000, 700, some 0⟩ (by decide) (by decide) (by decide) (by decide)

theorem weightedAverage_pos (a T c q : Int) (hq : 0 < q) (hT : 0 < T + q) :
    weightedAverage a T c q = roundHalfUp (a * T + c * q) (T + q) := by
  unfold weightedAverage
  rw [if_neg (by omega : ¬ q ≤ 0)]
  show (if T + q ≤ 0 then (0 : Int) else roundHalfUp (a * T + c * q) (T + q)) =
    roundHalfUp (a * T + c * q) (T + q)
  rw [if_neg (by omega)]

theorem weightedAverage_nonpos (a T c q : Int) (hq : 0 < q) (hT : T + q ≤ 0) :
    weightedAverage a T c q = 0 := by
  unfold weightedAverage
  rw [if_neg (by omega : ¬ q ≤ 0)]
  show (if T + q ≤ 0 then (0 : Int) else roundHalfUp (a * T + c * q) (T + q)) = 0
  rw [if_pos hT]

/-- Closed form of the positive branch of `register_adjustment`. -/
theorem registerAdjustment_pos_eq (st : LedgerState) (p w : Nat) (qty : Int)
    (u : Nat) (uc : Option Int) (ref : String) (an : Bool) (hq : 0 < qty) :
    registerAdjustment st p w qty u uc ref an = .ok { st with
      products := (updateProduct st.products p (fun info =>
        { info with avgCost := (weightedAverage (st.avgCostOf p)
            (totalStockQuantity st.stocks p) (uc.getD (st.avgCostOf p)) qty) })),
      stocks := setStockQty (getOrCreateStock st.stocks p w).1 p w
        (st.stockQty p w + qty),
      movements := st.movements ++
        [{ movementType := .adjustment, productId := p, quantity := |qty|,
           unitCost := uc.getD (st.avgCostOf p), salePrice := 0,
           vatPercent := 0, fromWarehouse := none, toWarehouse := some w,
           userId := u, reference := ref, saleRef := none,
           purchaseId := none }] } := by
  simp only [registerAdjustment, getOrCreateStock_snd,
    totalStockQuantity_getOrCreate]
  rw [if_neg (by omega : ¬ qty = 0), if_pos hq]

/-- Closed form of the negative branch of `register_adjustment`. -/
theorem registerAdjustment_neg_eq (st : LedgerState) (p w : Nat) (qty : Int)
    (u : Nat) (uc : Option Int) (ref : String) (an : Bool) (hq : qty < 0) :
    registerAdjustment st p w qty u uc ref an =
      if !an ∧ st.stockQty p w + qty < 0 then .error .negativeStock
      else .ok { st with
        stocks := setStockQty (getOrCreateStock st.stocks p w).1 p w
          (st.stockQty p w + qty),
        movements := st.movements ++
          [{ movementType := .adjustment, productId := p, quantity := |qty|,
             unitCost := st.avgCostOf p, salePrice := 0, vatPercent := 0,
             fromWarehouse := some w, toWarehouse := none, userId := u,
             reference := ref, saleRef := none, purchaseId := none }] } := by
  simp only [registerAdjustment, getOrCreateStock_snd]
  rw [if_neg (by omega : ¬ qty = 0), if_neg (by omega : ¬ 0 < qty)]

/-- C3 (amended): a positive adjustment with explicit unit cost `c`
recomputes the basis as `(oldBasis·T + c·q)/(T + q)` rounded half-up —
where `T` is the pre-adjustment total quantity across all warehouses —
*provided* `T + q > 0`; when `T + q ≤ 0` (reachable through negative
stock) the basis is set to `0.00` instead.  A negative adjustment leaves
the product rows untouched, and `InvalidMovement` is raised exactly when
the signed quantity is zero. -/
theorem claim_C3 (st : LedgerState) (p w : Nat) (q : Int) (u : Nat) (c : Int)
    (ref : String) (an : Bool) :
    (registerAdjustment st p w q u (some c) ref an = .error .invalidMovement ↔
      q = 0) ∧
    (0 < q → 0 < totalStockQuantity st.stocks p + q →
      ∃ st', registerAdjustment st p w q u (some c) ref an = .ok st' ∧
        ((st.lookupProduct p).isSome = true →
          st'.avgCostOf p = roundHalfUp
            (st.avgCostOf p * totalStockQuantity st.stocks p + c * q)
            (totalStockQuantity st.stocks p + q)) ∧
        st'.stockQty p w = st.stockQty p w + q) ∧
    (0 < q → totalStockQuantity st.stocks p + q ≤ 0 →
      ∃ st', registerAdjustment st p w q u (some c) ref an = .ok st' ∧
        ((st.lookupProduct p).isSome = true → st'.avgCostOf p = 0)) ∧
    (q < 0 → ∀ st', registerAdjustment st p w q u (some c) ref an = .ok st' →
      st'.products = st.products) := by
  refine ⟨?_, ?_, ?_, ?_⟩
  · constructor
    · intro hh
      by_contra hq0
      rcases lt_trichotomy q 0 with h | h | h
      · rw [registerAdjustment_neg_eq st p w q u (some c) ref an h] at hh
        by_cases h2 : (!an) = true ∧ st.stockQty p w + q < 0
        · rw [if_pos h2] at hh; cases hh
        · rw [if_neg h2] at hh; cases hh
      · exact hq0 h
      · rw [registerAdjustment_pos_eq st p w q u (some c) ref an h] at hh
        cases hh
    · intro hh
      rw [registerAdjustment, if_pos hh]
  · intro hq hT
    rw [registerAdjustment_pos_eq st p w q u (some c) ref an hq]
    refine ⟨_, rfl, ?_, stockQty_set_getOrCreate _ _ _ _⟩
    intro hsome
    simp only [LedgerState.avgCostOf, LedgerState.lookupProduct]
    rw [lookupProduct_updateProduct_self]
    unfold LedgerState.lookupProduct at hsome
    cases h : st.products.find? (fun e => e.1 = p) with
    | none => rw [h] at hsome; simp at hsome
    | some e =>
        exact weightedAverage_pos _ _ _ _ hq hT
  · intro hq hT
    rw [registerAdjustment_pos_eq st p w q u (some c) ref an hq]
    refine ⟨_, rfl, ?_⟩
    intro hsome
    simp only [LedgerState.avgCostOf, LedgerState.lookupProduct]
    rw [lookupProduct_updateProduct_self]
    unfold LedgerState.lookupProduct at hsome
    cases h : st.products.find? (fun e => e.1 = p) with
    | none => rw [h] at hsome; simp at hsome
    | some e =>
        exact weightedAverage_nonpos _ _ _ _ hq hT
  · intro hq st' hst'
    rw [registerAdjustment_neg_eq st p w q u (some c) ref an hq] at hst'
    by_cases h2 : (!an) = true ∧ st.stockQty p w + q < 0
    · rw [if_pos h2] at hst'; cases hst'
    · rw [if_neg h2] at hst'; cases hst'; rfl

/-- Witness for C3: on 10.00 total at basis 4.00, adjusting +5.00 at cost
7.00 yields basis `(400·1000 + 700·500)/1500 = 500` (5.00); adjusting
−2.00 leaves the product rows untouched. -/
theorem claim_C3_witness :
    (∃ st', registerAdjustment ledgerW 1 2 500 7 (some 700) "" false = .ok st' ∧
      ((ledgerW.lookupProduct 1).isSome = true →
        st'.avgCostOf 1 = roundHalfUp
          (ledgerW.avgCostOf 1 * totalStockQuantity ledgerW.stocks 1 + 700 * 500)
          (totalStockQuantity ledgerW.stocks 1 + 500)) ∧
      st'.stockQty 1 2 = ledgerW.stockQty 1 2 + 500) ∧
    (∀ st', registerAdjustment ledgerW 1 2 (-200) 7 (some 700) "" false =
        .ok st' → st'.products = ledgerW.products) :=
  ⟨(claim_C3 ledgerW 1 2 500 7 700 "" false).2.1 (by decide) (by decide),
   (claim_C3 ledgerW 1 2 (-200) 7 700 "" false).2.2.2 (by decide)⟩

/-- Counterexample for C3 as stated: with a pre-adjustment total of −10.00
(reachable through `allow_negative` exits) and basis 5.00, adjusting +5.00
at explicit cost 2.00 makes `T + q = −5.00 ≤ 0`, and the code sets the
basis to `0.00`, while the claimed formula `(oldBasis·T + c·q)/(T + q)`
evaluates (exactly) to `8.00`. -/
theorem claim_C3_counterexample :
    (registerAdjustment ledgerNeg 1 10 500 7 (some 200) "" false).toOption.map
        (fun s => s.avgCostOf 1) = some 0 ∧
    (ledgerNeg.avgCostOf 1 * totalStockQuantity ledgerNeg.stocks 1 +
        200 * 500) / (totalStockQuantity ledgerNeg.stocks 1 + 500) = 800 ∧
    (0 : Int) ≠ 800 := by decide

/-- The loop's acceptance threshold: `mkRat 3 10` is `0.3`. -/
theorem mkRat_three_ten : mkRat 3 10 = (3 : ℚ)/10 := by
  norm_num [Rat.mkRat_eq_div]

/-- Any match returned by the candidate loop comes from a candidate that
has name tokens and passes the group gate (or from the incoming best,
assumed to satisfy the same). -/
theorem matchGo_mem (tn : String) (tt : List String) :
    ∀ (idx : List IndexEntry) (bs : ℚ) (b : Option IndexEntry) (pid : Nat)
      (nm : String),
    (∀ e0, b = some e0 → e0.nameTokens ≠ [] ∧ passesGroupGate tt e0 = true) →
    matchGo tn tt idx bs b = (some pid, nm) →
    ∃ e, (e ∈ idx ∨ b = some e) ∧ pid = e.pid ∧ nm = e.name ∧
      e.nameTokens ≠ [] ∧ passesGroupGate tt e = true := by
  intro idx
  induction idx with
  | nil =>
      intro bs b pid nm hb hm
      simp only [matchGo] at hm
      by_cases hbs : mkRat 3 10 ≤ bs
      · rw [if_pos hbs] at hm
        cases b with
        | none => simp at hm
        | some e0 =>
            simp only [Prod.mk.injEq, Option.some.injEq] at hm
            exact ⟨e0, Or.inr rfl, hm.1.symm, hm.2.symm, (hb e0 rfl).1,
              (hb e0 rfl).2⟩
      · rw [if_neg hbs] at hm; simp at hm
  | cons e rest ih =>
      intro bs b pid nm hb hm
      simp only [matchGo] at hm
      by_cases c1 : e.nameTokens = []
      · rw [if_pos c1] at hm
        obtain ⟨e', horig, h⟩ := ih bs b pid nm hb hm
        exact ⟨e', by rcases horig with h' | h'
                      · exact Or.inl (List.mem_cons_of_mem _ h')
                      · exact Or.inr h', h⟩
      · rw [if_neg c1] at hm
        by_cases c2 : passesGroupGate tt e = true
        · rw [if_neg (fun hh => hh c2)] at hm
          by_cases c3 : e.nameNorm ≠ "" ∧ strContains tn e.nameNorm = true
          · rw [if_pos c3] at hm
            simp only [Prod.mk.injEq, Option.some.injEq] at hm
            exact ⟨e, Or.inl (List.mem_cons_self _ _), hm.1.symm,
              hm.2.symm, c1, c2⟩
          · rw [if_neg c3] at hm
            by_cases c4 : bs < scoreOf tt e
            · rw [if_pos c4] at hm
              obtain ⟨e', horig, h⟩ := ih (scoreOf tt e) (some e) pid nm
                (by intro e0 he0; cases he0; exact ⟨c1, c2⟩) hm
              rcases horig with h' | h'
              · exact ⟨e', Or.inl (List.mem_cons_of_mem _ h'), h⟩
              · cases h'
                exact ⟨e, Or.inl (List.mem_cons_self _ _), h⟩
            · rw [if_neg c4] at hm
              obtain ⟨e', horig, h⟩ := ih bs b pid nm hb hm
              rcases horig with h' | h'
              · exact ⟨e', Or.inl (List.mem_cons_of_mem _ h'), h⟩
              · exact ⟨e', Or.inr h', h⟩
        · rw [if_pos c2] at hm
          obtain ⟨e', horig, h⟩ := ih bs b pid nm hb hm
          rcases horig with h' | h'
          · exact ⟨e', Or.inl (List.mem_cons_of_mem _ h'), h⟩
          · exact ⟨e', Or.inr h', h⟩

/-- When no candidate can trigger the substring return, the loop returns
the first candidate attaining the maximal score among surviving candidates
(strictly better than everything before it, at least as good as everything
after), with that score at least 0.3 — or the incoming best when nothing
beats it. -/
theorem matchGo_best (tn : String) (tt : List String) :
    ∀ (idx : List IndexEntry) (bs : ℚ) (b : Option IndexEntry) (pid : Nat)
      (nm : String),
    (∀ e ∈ idx, e.nameTokens ≠ [] → passesGroupGate tt e = true →
      ¬ (e.nameNorm ≠ "" ∧ strContains tn e.nameNorm = true)) →
    (∀ e0, b = some e0 → scoreOf tt e0 = bs) →
    matchGo tn tt idx bs b = (some pid, nm) →
    ((∃ e0, b = some e0 ∧ pid = e0.pid ∧ nm = e0.name ∧ mkRat 3 10 ≤ bs ∧
        (∀ e' ∈ idx, e'.nameTokens ≠ [] → passesGroupGate tt e' = true →
          scoreOf tt e' ≤ bs)) ∨
     (∃ l₁ e l₂, idx = l₁ ++ e :: l₂ ∧ pid = e.pid ∧ nm = e.name ∧
        e.nameTokens ≠ [] ∧ passesGroupGate tt e = true ∧
        mkRat 3 10 ≤ scoreOf tt e ∧ bs < scoreOf tt e ∧
        (∀ ea ∈ l₁, ea.nameTokens ≠ [] → passesGroupGate tt ea = true →
          scoreOf tt ea < scoreOf tt e) ∧
        (∀ ea ∈ l₂, ea.nameTokens ≠ [] → passesGroupGate tt ea = true →
          scoreOf tt ea ≤ scoreOf tt e))) := by
  intro idx
  induction idx with
  | nil =>
      intro bs b pid nm _ hb hm
      simp only [matchGo] at hm
      by_cases hbs : mkRat 3 10 ≤ bs
      · rw [if_pos hbs] at hm
        cases b with
        | none => simp at hm
        | some e0 =>
            simp only [Prod.mk.injEq, Option.some.injEq] at hm
            exact Or.inl ⟨e0, rfl, hm.1.symm, hm.2.symm, hbs,
              by intro e' he'; simp at he'⟩
      · rw [if_neg hbs] at hm; simp at hm
  | cons e rest ih =>
      intro bs b pid nm hsub hb hm
      simp only [matchGo] at hm
      by_cases c1 : e.nameTokens = []
      · rw [if_pos c1] at hm
        rcases ih bs b pid nm (fun x hx => hsub x (List.mem_cons_of_mem _ hx))
            hb hm with ⟨e0, h1, h2, h3, h4, h5⟩ | ⟨l₁, e', l₂, h1, h⟩
        · exact Or.inl ⟨e0, h1, h2, h3, h4, by
            intro e' he'
            rcases List.mem_cons.mp he' with h' | h'
            · intro hnt _; exact absurd (h'.symm ▸ c1) hnt
            · exact h5 e' h'⟩
        · refine Or.inr ⟨e :: l₁, e', l₂, by simp [h1], h.1, h.2.1, h.2.2.1,
            h.2.2.2.1, h.2.2.2.2.1, h.2.2.2.2.2.1, ?_, h.2.2.2.2.2.2.2⟩
          intro ea hea
          rcases List.mem_cons.mp hea with h' | h'
          · intro hnt _; exact absurd (h'.symm ▸ c1) hnt
          · exact h.2.2.2.2.2.2.1 ea h'
      · rw [if_neg c1] at hm
        by_cases c2 : passesGroupGate tt e = true
        · rw [if_neg (fun hh => hh c2)] at hm
          have hnosub : ¬ (e.nameNorm ≠ "" ∧ strContains tn e.nameNorm = true) :=
            hsub e (List.mem_cons_self _ _) c1 c2
          rw [if_neg hnosub] at hm
          by_cases c4 : bs < scoreOf tt e
          · rw [if_pos c4] at hm
            rcases ih (scoreOf tt e) (some e) pid nm
                (fun x hx => hsub x (List.mem_cons_of_mem _ hx))
                (by intro e0 he0; cases he0; rfl) hm with
              ⟨e0, h1, h2, h3, h4, h5⟩ | ⟨l₁, e', l₂, h1, h⟩
            · cases h1
              refine Or.inr ⟨[], e, rest, rfl, h2, h3, c1, c2, h4, c4, ?_, h5⟩
              intro ea hea; simp at hea
            · refine Or.inr ⟨e :: l₁, e', l₂, by simp [h1], h.1, h.2.1,
                h.2.2.1, h.2.2.2.1, h.2.2.2.2.1,
                lt_trans c4 h.2.2.2.2.2.1, ?_, h.2.2.2.2.2.2.2⟩
              intro ea hea
              rcases List.mem_cons.mp hea with h' | h'
              · intro _ _; rw [h']; exact h.2.2.2.2.2.1
              · exact h.2.2.2.2.2.2.1 ea h'
          · rw [if_neg c4] at hm
            rcases ih bs b pid nm
                (fun x hx => hsub x (List.mem_cons_of_mem _ hx)) hb hm with
              ⟨e0, h1, h2, h3, h4, h5⟩ | ⟨l₁, e', l₂, h1, h⟩
            · refine Or.inl ⟨e0, h1, h2, h3, h4, ?_⟩
              intro e' he'
              rcases List.mem_cons.mp he' with h' | h'
              · intro _ _; rw [h']; exact le_of_not_lt c4
              · exact h5 e' h'
            · refine Or.inr ⟨e :: l₁, e', l₂, by simp [h1], h.1, h.2.1,
                h.2.2.1, h.2.2.2.1, h.2.2.2.2.1, h.2.2.2.2.2.1, ?_,
                h.2.2.2.2.2.2.2⟩
              intro ea hea
              rcases List.mem_cons.mp hea with h' | h'
              · intro _ _
                rw [h']
                exact lt_of_le_of_lt (le_of_not_lt c4) h.2.2.2.2.2.1
              · exact h.2.2.2.2.2.2.1 ea h'
        · rw [if_pos c2] at hm
          rcases ih bs b pid nm
              (fun x hx => hsub x (List.mem_cons_of_mem _ hx)) hb hm with
            ⟨e0, h1, h2, h3, h4, h5⟩ | ⟨l₁, e', l₂, h1, h⟩
          · refine Or.inl ⟨e0, h1, h2, h3, h4, ?_⟩
            intro e' he'
            rcases List.mem_cons.mp he' with h' | h'
            · intro _ hg; exact absurd (h' ▸ hg) c2
            · exact h5 e' h'
          · refine Or.inr ⟨e :: l₁, e', l₂, by simp [h1], h.1, h.2.1, h.2.2.1,
              h.2.2.2.1, h.2.2.2.2.1, h.2.2.2.2.2.1, ?_,
              h.2.2.2.2.2.2.2⟩
            intro ea hea
            rcases List.mem_cons.mp hea with h' | h'
            · intro _ hg; exact absurd (h' ▸ hg) c2
            · exact h.2.2.2.2.2.2.1 ea h'

/-- The first surviving candidate whose nonempty normalized name occurs in
the normalized title is returned immediately, whatever the loop state. -/
theorem matchGo_substring_first (tn : String) (tt : List String) :
    ∀ (l₁ : List IndexEntry) (e : IndexEntry) (l₂ : List IndexEntry)
      (bs : ℚ) (b : Option IndexEntry),
    (∀ ea ∈ l₁, ea.nameTokens ≠ [] → passesGroupGate tt ea = true →
      ¬ (ea.nameNorm ≠ "" ∧ strContains tn ea.nameNorm = true)) →
    e.nameTokens ≠ [] → passesGroupGate tt e = true →
    e.nameNorm ≠ "" → strContains tn e.nameNorm = true →
    matchGo tn tt (l₁ ++ e :: l₂) bs b = (some e.pid, e.name) := by
  intro l₁
  induction l₁ with
  | nil =>
      intro e l₂ bs b _ h1 h2 h3 h4
      simp only [List.nil_append, matchGo]
      rw [if_neg h1, if_neg (fun hh => hh h2), if_pos ⟨h3, h4⟩]
  | cons a t ih =>
      intro e l₂ bs b hskip h1 h2 h3 h4
      simp only [List.cons_append, matchGo]
      by_cases c1 : a.nameTokens = []
      · rw [if_pos c1]
        exact ih e l₂ bs b (fun x hx => hskip x (List.mem_cons_of_mem _ hx))
          h1 h2 h3 h4
      · rw [if_neg c1]
        by_cases c2 : passesGroupGate tt a = true
        · rw [if_neg (fun hh => hh c2)]
          have hnosub := hskip a (List.mem_cons_self _ _) c1 c2
          rw [if_neg hnosub]
          by_cases c4 : bs < scoreOf tt a
          · rw [if_pos c4]
            exact ih e l₂ _ _ (fun x hx => hskip x (List.mem_cons_of_mem _ hx))
              h1 h2 h3 h4
          · rw [if_neg c4]
            exact ih e l₂ _ _ (fun x hx => hskip x (List.mem_cons_of_mem _ hx))
              h1 h2 h3 h4
        · rw [if_pos c2]
          exact ih e l₂ _ _ (fun x hx => hskip x (List.mem_cons_of_mem _ hx))
            h1 h2 h3 h4

/-- A loop over candidates that all lack name tokens skips everything. -/
theorem matchGo_all_tokenless (tn : String) (tt : List String) :
    ∀ (idx : List IndexEntry) (bs : ℚ) (b : Option IndexEntry),
    (∀ e ∈ idx, e.nameTokens = []) →
    matchGo tn tt idx bs b = matchGo tn tt [] bs b := by
  intro idx
  induction idx with
  | nil => intro bs b _; rfl
  | cons e rest ih =>
      intro bs b hall
      simp only [matchGo]
      rw [if_pos (hall e (List.mem_cons_self _ _))]
      exact ih bs b (fun x hx => hall x (List.mem_cons_of_mem _ hx))

/-- C9 (amended): (1) a returned candidate always passes the group gate and
has at least one name token; (2) the first candidate that passes the gate,
has name tokens, and whose nonempty normalized name is a substring of the
normalized title is returned immediately; (3) absent any such substring
candidate, the returned candidate's score is at least 0.3 and maximal among
surviving candidates (no candidate scoring below 0.3 is returned). -/
theorem claim_C9 (title : String) (idx : List IndexEntry) :
    (∀ pid nm, matchProduct title idx = (some pid, nm) →
      ∃ e, e ∈ idx ∧ pid = e.pid ∧ nm = e.name ∧
        e.nameTokens ≠ [] ∧ passesGroupGate (tokenize title).dedup e = true) ∧
    (∀ l₁ e l₂, idx = l₁ ++ e :: l₂ →
      (∀ ea ∈ l₁, ea.nameTokens ≠ [] →
        passesGroupGate (tokenize title).dedup ea = true →
        ¬ (ea.nameNorm ≠ "" ∧
           strContains (normalize title) ea.nameNorm = true)) →
      e.nameTokens ≠ [] → passesGroupGate (tokenize title).dedup e = true →
      e.nameNorm ≠ "" → strContains (normalize title) e.nameNorm = true →
      matchProduct title idx = (some e.pid, e.name)) ∧
    ((∀ e ∈ idx, e.nameTokens ≠ [] →
        passesGroupGate (tokenize title).dedup e = true →
        ¬ (e.nameNorm ≠ "" ∧
           strContains (normalize title) e.nameNorm = true)) →
      ∀ pid nm, matchProduct title idx = (some pid, nm) →
        ∃ e, e ∈ idx ∧ pid = e.pid ∧ nm = e.name ∧
          (3 : ℚ)/10 ≤ scoreOf (tokenize title).dedup e ∧
          (∀ e' ∈ idx, e'.nameTokens ≠ [] →
            passesGroupGate (tokenize title).dedup e' = true →
            scoreOf (tokenize title).dedup e' ≤
              scoreOf (tokenize title).dedup e)) := by
  refine ⟨?_, ?_, ?_⟩
  · intro pid nm hm
    unfold matchProduct at hm
    obtain ⟨e, horig, h⟩ := matchGo_mem (normalize title) (tokenize title).dedup
      idx 0 none pid nm (by intro e0 h0; cases h0) hm
    rcases horig with h' | h'
    · exact ⟨e, h', h⟩
    · cases h'
  · intro l₁ e l₂ heq hskip h1 h2 h3 h4
    unfold matchProduct
    rw [heq]
    exact matchGo_substring_first (normalize title) (tokenize title).dedup
      l₁ e l₂ 0 none hskip h1 h2 h3 h4
  · intro hsub pid nm hm
    unfold matchProduct at hm
    rcases matchGo_best (normalize title) (tokenize title).dedup idx 0 none
        pid nm hsub (by intro e0 h0; cases h0) hm with
      ⟨e0, h0, _⟩ | ⟨l₁, e, l₂, heq, hpid, hnm, _, _, hth, _, hlt, hle⟩
    · cases h0
    · rw [mkRat_three_ten] at hth
      have hmem : e ∈ idx := by
        rw [heq]; exact List.mem_append_right _ (List.mem_cons_self _ _)
      refine ⟨e, hmem, hpid, hnm, hth, ?_⟩
      intro e' he' hnt hg
      rw [heq] at he'
      rcases List.mem_append.mp he' with h' | h'
      · exact le_of_lt (hlt e' h' hnt hg)
      · rcases List.mem_cons.mp h' with h'' | h''
        · rw [h'']
        · exact hle e' h'' hnt hg

/-- Counterexample for C9 as stated: the candidate "a" declares no group
tokens (so it survives the claim's gate), and its normalized name "a" is a
substring of the normalized title "ab cd", yet the matcher returns no match
— the code additionally requires at least one name token of length > 1
before the substring rule can fire. -/
theorem claim_C9_counterexample :
    matchProduct "ab cd" (buildProductIndex [(1, prodInfoA)]) = (none, "") ∧
    (∀ e ∈ buildProductIndex [(1, prodInfoA)],
      passesGroupGate (tokenize "ab cd").dedup e = true ∧
      e.nameNorm ≠ "" ∧
      strContains (normalize "ab cd") e.nameNorm = true) := by decide

/-- Witness for C9: the substring rule fires for "Shampoo X" inside
"Shampoo X 500ml nuevo"; the scoring rule returns "crema corporal
nutritiva" for "crema facial hidratante" (score 1/3 ≥ 0.3, no substring
candidate). -/
theorem claim_C9_witness :
    (matchProduct "Shampoo X 500ml nuevo" (buildProductIndex [(1, prodInfoW)]) =
      (some entryW.pid, entryW.name)) ∧
    (∃ e, e ∈ buildProductIndex [(2, prodInfoCrema)] ∧
      (2 : Nat) = e.pid ∧ "crema corporal nutritiva" = e.name ∧
      (3 : ℚ)/10 ≤ scoreOf (tokenize "crema facial hidratante").dedup e ∧
      (∀ e' ∈ buildProductIndex [(2, prodInfoCrema)], e'.nameTokens ≠ [] →
        passesGroupGate (tokenize "crema facial hidratante").dedup e' = true →
        scoreOf (tokenize "crema facial hidratante").dedup e' ≤
          scoreOf (tokenize "crema facial hidratante").dedup e)) :=
  ⟨(claim_C9 "Shampoo X 500ml nuevo" (buildProductIndex [(1, prodInfoW)])).2.1
      [] entryW [] (by decide) (by intro ea hea; simp at hea) (by decide)
      (by decide) (by decide) (by decide),
   (claim_C9 "crema facial hidratante"
      (buildProductIndex [(2, prodInfoCrema)])).2.2 (by decide) 2
      "crema corporal nutritiva" (by decide)⟩

/-- C10: a candidate whose name yields no tokens of length > 1 is never
returned — when every candidate is tokenless the matcher returns no match,
even if a normalized name is a substring of the title — and in the scoring
path the earliest candidate among those tied for the highest score is
returned (later candidates displace the best only with a strictly greater
score). -/
theorem claim_C10 (title : String) (idx : List IndexEntry) :
    (∀ pid nm, matchProduct title idx = (some pid, nm) →
      ∃ e, e ∈ idx ∧ pid = e.pid ∧ nm = e.name ∧ e.nameTokens ≠ []) ∧
    ((∀ e ∈ idx, e.nameTokens = []) → matchProduct title idx = (none, "")) ∧
    ((∀ e ∈ idx, e.nameTokens ≠ [] →
        passesGroupGate (tokenize title).dedup e = true →
        ¬ (e.nameNorm ≠ "" ∧
           strContains (normalize title) e.nameNorm = true)) →
      ∀ pid nm, matchProduct title idx = (some pid, nm) →
        ∃ l₁ e l₂, idx = l₁ ++ e :: l₂ ∧ pid = e.pid ∧ nm = e.name ∧
          (∀ ea ∈ l₁, ea.nameTokens ≠ [] →
            passesGroupGate (tokenize title).dedup ea = true →
            scoreOf (tokenize title).dedup ea <
              scoreOf (tokenize title).dedup e) ∧
          (∀ ea ∈ l₂, ea.nameTokens ≠ [] →
            passesGroupGate (tokenize title).dedup ea = true →
            scoreOf (tokenize title).dedup ea ≤
              scoreOf (tokenize title).dedup e)) := by
  refine ⟨?_, ?_, ?_⟩
  · intro pid nm hm
    unfold matchProduct at hm
    obtain ⟨e, horig, h1, h2, h3, _⟩ := matchGo_mem (normalize title)
      (tokenize title).dedup idx 0 none pid nm (by intro e0 h0; cases h0) hm
    rcases horig with h' | h'
    · exact ⟨e, h', h1, h2, h3⟩
    · cases h'
  · intro hall
    unfold matchProduct
    rw [matchGo_all_tokenless (normalize title) (tokenize title).dedup idx 0
      none hall]
    simp only [matchGo]
    rw [if_neg (by rw [mkRat_three_ten]; norm_num)]
  · intro hsub pid nm hm
    unfold matchProduct at hm
    rcases matchGo_best (normalize title) (tokenize title).dedup idx 0 none
        pid nm hsub (by intro e0 h0; cases h0) hm with
      ⟨e0, h0, _⟩ | ⟨l₁, e, l₂, heq, hpid, hnm, _, _, _, _, hlt, hle⟩
    · cases h0
    · exact ⟨l₁, e, l₂, heq, hpid, hnm, hlt, hle⟩

/-- Witness for C10: all-tokenless candidates yield no match even when the
name is a substring of the title; with two candidates tied at score 1/2 for
"crema facial", the earliest ("crema corporal") is returned. -/
theorem claim_C10_witness :
    (matchProduct "ab cd" (buildProductIndex [(1, prodInfoA)]) = (none, "")) ∧
    (∃ l₁ e l₂,
      buildProductIndex [(1, prodInfoC1), (2, prodInfoC2)] =
        l₁ ++ e :: l₂ ∧ (1 : Nat) = e.pid ∧ "crema corporal" = e.name ∧
      (∀ ea ∈ l₁, ea.nameTokens ≠ [] →
        passesGroupGate (tokenize "crema facial").dedup ea = true →
        scoreOf (tokenize "crema facial").dedup ea <
          scoreOf (tokenize "crema facial").dedup e) ∧
      (∀ ea ∈ l₂, ea.nameTokens ≠ [] →
        passesGroupGate (tokenize "crema facial").dedup ea = true →
        scoreOf (tokenize "crema facial").dedup ea ≤
          scoreOf (tokenize "crema facial").dedup e)) :=
  ⟨(claim_C10 "ab cd" (buildProductIndex [(1, prodInfoA)])).2.1 (by decide),
   (claim_C10 "crema facial"
      (buildProductIndex [(1, prodInfoC1), (2, prodInfoC2)])).2.2 (by decide)
      1 "crema corporal" (by decide)⟩

/-- Witness for C8: transfer 5.00 of product 1 from warehouse 2 to
warehouse 3 out of 10.00. -/
theorem claim_C8_witness :
    ((∃ st', registerTransfer ledgerW 1 2 3 500 7 "T-1" false = .ok st') ↔
      (false = true ∨ 0 ≤ ledgerW.stockQty 1 2 - 500)) ∧
    (∀ st', registerTransfer ledgerW 1 2 3 500 7 "T-1" false = .ok st' →
      st'.stockQty 1 2 = ledgerW.stockQty 1 2 - 500 ∧
      (∀ p', st'.lookupStock p' 3 = ledgerW.lookupStock p' 3) ∧
      (∀ p' w', (p', w') ≠ (1, 2) →
        st'.lookupStock p' w' = ledgerW.lookupStock p' w') ∧
      st'.products = ledgerW.products ∧
      st'.avgCostOf 1 = ledgerW.avgCostOf 1 ∧
      st'.movements = ledgerW.movements ++
        [{ movementType := .transfer, productId := 1, quantity := 500,
           unitCost := ledgerW.avgCostOf 1, salePrice := 0, vatPercent := 0,
           fromWarehouse := some 2, toWarehouse := some 3,
           userId := 7, reference := "T-1", saleRef := none,
           purchaseId := none }]) :=
  claim_C8 ledgerW 1 2 3 500 7 "T-1" false (by decide) (by decide)


theorem find?_map_preserve (g : MlItemRec → MlItemRec)
    (hid : ∀ r, (g r).itemId = r.itemId)
    (hpid : ∀ r, (g r).productId = r.productId) :
    ∀ (items : List MlItemRec) (iid : String),
    (((items.map g).find? (fun r => r.itemId = iid)).map (·.productId)).getD
        none =
      ((items.find? (fun r => r.itemId = iid)).map (·.productId)).getD none := by
  intro items iid
  induction items with
  | nil => rfl
  | cons a t ih =>
      rw [List.map_cons]
      by_cases ha : a.itemId = iid
      · rw [List.find?_cons_of_pos _ (by simp [hid, ha]),
          List.find?_cons_of_pos _ (by simp [ha])]
        simp [hpid]
      · rw [List.find?_cons_of_neg _ (by simp [hid, ha]),
          List.find?_cons_of_neg _ (by simp [ha])]
        exact ih

theorem productOf_upsert (items : List MlItemRec) (iid title : String)
    (av : Int) (stt pl : String) (iid2 : String) :
    (((upsertItemDetails items iid title av stt pl).find?
        (fun r => r.itemId = iid2)).map (·.productId)).getD none =
      ((items.find? (fun r => r.itemId = iid2)).map (·.productId)).getD none := by
  unfold upsertItemDetails
  cases h : items.find? (fun r => r.itemId = iid) with
  | some r0 =>
      exact find?_map_preserve _
        (by intro r; by_cases hr : r.itemId = iid <;> simp [hr])
        (by intro r; by_cases hr : r.itemId = iid <;> simp [hr]) items iid2
  | none =>
      rw [List.find?_append]
      cases hf : items.find? (fun r => r.itemId = iid2) with
      | some r1 => simp
      | none =>
          simp only [Option.none_or]
          by_cases hii : iid = iid2
          · subst hii
            rw [List.find?_cons_of_pos _ (by simp)]
            rfl
          · rw [List.find?_cons_of_neg _ (by simp [hii])]
            rfl

theorem foldl_updateItemSales_productOf
    (sales : List (String × Int × Option Int)) :
    ∀ (items : List MlItemRec) (iid : String),
    (((sales.foldl (fun its s => updateItemSales its s.1 s.2.2 s.2.1)
        items).find? (fun r => r.itemId = iid)).map (·.productId)).getD none =
      ((items.find? (fun r => r.itemId = iid)).map (·.productId)).getD none := by
  induction sales with
  | nil => intro items iid; rfl
  | cons s rest ih =>
      intro items iid
      rw [List.foldl_cons, ih]
      unfold updateItemSales
      exact find?_map_preserve _
        (by intro r; by_cases hr : r.itemId = s.1 <;> simp [hr])
        (by intro r; by_cases hr : r.itemId = s.1 <;> simp [hr]) items iid

theorem applyWrite_mlItems (db : DbState) (w : DbWrite) :
    (applyWrite db w).mlItems = db.mlItems := by
  cases w with
  | createSale s => rfl
  | createSaleItem it => rfl
  | exitWrite p q u r pr v wh =>
      show (match registerExit db.ledger p wh q u r true (some pr) (some v)
          (some r) with
        | .ok l => { db with ledger := l }
        | .error _ => db).mlItems = db.mlItems
      cases registerExit db.ledger p wh q u r true (some pr) (some v)
        (some r) <;> rfl

theorem applyWrites_mlItems (ws : List DbWrite) :
    ∀ (db : DbState), (applyWrites db ws).mlItems = db.mlItems := by
  induction ws with
  | nil => intro db; rfl
  | cons w ws ih =>
      intro db
      calc (applyWrites db (w :: ws)).mlItems
          = (applyWrites (applyWrite db w) ws).mlItems := rfl
        _ = (applyWrite db w).mlItems := ih _
        _ = db.mlItems := applyWrite_mlItems db w

theorem resolveLinesLoop_productOf (env : Env) :
    ∀ (lines : List OrderLine) (db : DbState) (acc : List ResolvedLine)
      (iid : String),
    productOf (resolveLinesLoop env lines db acc).1 iid = productOf db iid := by
  intro lines
  induction lines with
  | nil => intro db acc iid; rfl
  | cons line rest ih =>
      intro db acc iid
      simp only [resolveLinesLoop]
      repeat' split
      all_goals
        first
        | rfl
        | exact ih db acc iid
        | exact ih db _ iid
        | (rw [ih]
           unfold productOf lookupMlItem
           exact productOf_upsert db.mlItems line.itemId _ _ _ _ iid)

theorem syncItemsLoop_productOf (env : Env) (user : Nat) (mlWh : Option Nat) :
    ∀ (ids : List String) (db : DbState) (cnt : ItemCounters) (iid : String),
    productOf (syncItemsLoop env user mlWh ids db cnt).1 iid =
      productOf db iid := by
  intro ids
  induction ids with
  | nil => intro db cnt iid; rfl
  | cons i rest ih =>
      intro db cnt iid
      have hupr : ∀ (item : ItemDetail),
          productOf { db with mlItems := (upsertItemDetails db.mlItems i
            item.title item.availableQuantity item.status item.permalink) }
            iid = productOf db iid := by
        intro item
        unfold productOf lookupMlItem
        exact productOf_upsert db.mlItems i _ _ _ _ iid
      simp only [syncItemsLoop]
      repeat' split
      all_goals
        first
        | rfl
        | exact ih db _ iid
        | (rw [ih]; exact hupr _)
        | exact hupr _

theorem syncOrder_productOf (env : Env) (db : DbState) (conn : MlConnection)
    (oid : String) (user : Nat) (iid : String) :
    productOf (syncOrder env db conn oid user).1 iid = productOf db iid := by
  simp only [syncOrder]
  repeat' split
  all_goals
    first
    | rfl
    | exact resolveLinesLoop_productOf env _ db [] iid
    | (unfold productOf
       rw [applyWrites_mlItems]
       exact resolveLinesLoop_productOf env _ db [] iid)

theorem syncItemsAndStock_productOf (env : Env) (db : DbState)
    (conn : MlConnection) (user : Nat) (iid : String) :
    productOf (syncItemsAndStock env db conn user).1 iid = productOf db iid := by
  simp only [syncItemsAndStock]
  repeat' split
  all_goals
    first
    | rfl
    | exact syncItemsLoop_productOf env user _ _ db _ iid
    | (unfold productOf lookupMlItem
       rw [foldl_updateItemSales_productOf]
       exact syncItemsLoop_productOf env user _ _ db _ iid)


/-- C4 (amended): neither sync path ever resolves a product through the
matcher — `sync_items_and_stock` and `sync_order` preserve the
listing-to-product mapping of every remote item id exactly (new listings
are created unmapped, the fallback detail fetch upserts without a product,
and unresolved lines are dropped); `_match_product` has no caller. -/
theorem claim_C4 (env : Env) (db : DbState) (conn : MlConnection)
    (user : Nat) (iid : String) (oid : String) :
    productOf (syncItemsAndStock env db conn user).1 iid = productOf db iid ∧
    productOf (syncOrder env db conn oid user).1 iid = productOf db iid :=
  ⟨syncItemsAndStock_productOf env db conn user iid,
   syncOrder_productOf env db conn oid user iid⟩

/-- Counterexample for C4 as stated: the matcher *would* resolve the
unmapped catalog item `MLX` ("Shampoo X 500ml") to product 1, but
`sync_items_and_stock` upserts the listing with no product and counts it
unmatched, and `sync_order`'s fallback fetches the detail, upserts the
listing still unmapped, and drops the line (`no_matches`). -/
theorem claim_C4_counterexample :
    (matchProduct "Shampoo X 500ml"
      (buildProductIndex dbC4.ledger.products)).1 = some 1 ∧
    productOf (syncItemsAndStock envC4 dbC4 connW 9).1 "MLX" = none ∧
    (syncItemsAndStock envC4 dbC4 connW 9).2.2 =
      .ok { totalItems := 1, matched := 0, unmatched := 1, updatedStock := 0,
            truncated := false } ∧
    productOf (syncOrder envC4 dbC4 connW "88" 9).1 "MLX" = none ∧
    (lookupMlItem (syncOrder envC4 dbC4 connW "88" 9).1.mlItems
      "MLX").isSome = true ∧
    (syncOrder envC4 dbC4 connW "88" 9).2.2 = .ok (false, "no_matches") := by
  decide


theorem incrReason_keys (rs : List (String × Nat)) (r : String)
    (hk : (rs.map (·.1)).Nodup) :
    ((incrReason rs r).map (·.1)).Nodup := by
  unfold incrReason
  cases h : rs.find? (fun e => e.1 = r) with
  | some e =>
      have : (rs.map (fun e => if e.1 = r then (e.1, e.2 + 1) else e)).map
          (·.1) = rs.map (·.1) := by
        rw [List.map_map]
        refine List.map_congr_left ?_
        intro x _
        by_cases hx : x.1 = r <;> simp [hx]
      rw [this]
      exact hk
  | none =>
      rw [List.map_append]
      refine List.Nodup.append hk (by simp) ?_
      intro k hk1 hk2
      simp at hk2
      subst hk2
      obtain ⟨x, hx, hx1⟩ := List.mem_map.mp hk1
      have := List.find?_eq_none.mp h x hx
      simp [hx1] at this

theorem incrReason_sum (rs : List (String × Nat)) (r : String)
    (hk : (rs.map (·.1)).Nodup) :
    ((incrReason rs r).map (·.2)).sum = ((rs.map (·.2)).sum) + 1 := by
  induction rs with
  | nil => rfl
  | cons a t ih =>
      rw [List.map_cons, List.nodup_cons] at hk
      by_cases ha : a.1 = r
      · unfold incrReason
        rw [List.find?_cons_of_pos _ (by simp [ha])]
        have : t.map (fun e => if e.1 = r then (e.1, e.2 + 1) else e) = t := by
          refine List.map_congr_left ?_ |>.trans (List.map_id t)
          intro x hx
          have hxr : x.1 ≠ r := by
            intro hh
            exact hk.1 (List.mem_map.mpr ⟨x, hx, by rw [hh, ha]⟩)
          simp [hxr]
        rw [List.map_cons, if_pos ha, this, List.map_cons]
        simp [List.sum_cons]
        omega
      · have hstep : incrReason (a :: t) r = a :: incrReason t r := by
          unfold incrReason
          rw [List.find?_cons_of_neg _ (by simp [ha])]
          cases h : t.find? (fun e => e.1 = r) with
          | some e => rw [List.map_cons, if_neg ha]
          | none => rw [List.cons_append]
        rw [hstep, List.map_cons, List.sum_cons, ih hk.2, List.map_cons,
          List.sum_cons]
        omega

theorem syncOrdersLoop_spec (env : Env) (user : Nat) :
    ∀ (ids : List String) (db : DbState) (conn : MlConnection) (created : Nat)
      (reasons : List (String × Nat)), (reasons.map (·.1)).Nodup →
    ((syncOrdersLoop env user ids db conn created reasons).2.2.2.2 = none →
      ((syncOrdersLoop env user ids db conn created reasons).2.2.2.1.map
        (·.1)).Nodup ∧
      (syncOrdersLoop env user ids db conn created reasons).2.2.1 +
        (((syncOrdersLoop env user ids db conn created reasons).2.2.2.1.map
          (·.2)).sum) =
        created + ((reasons.map (·.2)).sum) + ids.length) ∧
    (∀ e, (syncOrdersLoop env user ids db conn created reasons).2.2.2.2 =
        some e →
      ∃ pre oid suf, ids = pre ++ oid :: suf ∧
        (syncOrdersLoop env user pre db conn created reasons).2.2.2.2 = none ∧
        (syncOrdersLoop env user ids db conn created reasons).2.2.1 =
          (syncOrdersLoop env user pre db conn created reasons).2.2.1 ∧
        (syncOrdersLoop env user ids db conn created reasons).2.2.2.1 =
          (syncOrdersLoop env user pre db conn created reasons).2.2.2.1 ∧
        syncOrder env (syncOrdersLoop env user pre db conn created reasons).1
            (syncOrdersLoop env user pre db conn created reasons).2.1 oid
            user =
          ((syncOrdersLoop env user ids db conn created reasons).1,
           (syncOrdersLoop env user ids db conn created reasons).2.1,
           .error e)) := by
  intro ids
  induction ids with
  | nil =>
      intro db conn created reasons hk
      refine ⟨fun _ => ⟨hk, by simp [syncOrdersLoop]⟩, ?_⟩
      intro e he
      simp [syncOrdersLoop] at he
  | cons oid rest ih =>
      intro db conn created reasons hk
      rcases hres : syncOrder env db conn oid user with ⟨db1, conn1, res⟩
      cases res with
      | error e0 =>
          have hloop : syncOrdersLoop env user (oid :: rest) db conn created
              reasons = (db1, conn1, created, reasons, some e0) := by
            simp only [syncOrdersLoop, hres]
          rw [hloop]
          refine ⟨?_, ?_⟩
          · intro hnone; simp at hnone
          · intro e he
            have he0 : e = e0 := by
              simp at he; exact he.symm
            subst he0
            exact ⟨[], oid, rest, rfl, rfl, rfl, rfl, hres⟩
      | ok br =>
          rcases br with ⟨ok, reason⟩
          cases ok with
          | true =>
              have hloop : syncOrdersLoop env user (oid :: rest) db conn
                  created reasons =
                  syncOrdersLoop env user rest db1 conn1 (created + 1)
                    reasons := by
                simp only [syncOrdersLoop, hres, if_pos]
              obtain ⟨ihn, ihs⟩ := ih db1 conn1 (created + 1) reasons hk
              rw [hloop]
              refine ⟨?_, ?_⟩
              · intro hnone
                obtain ⟨hk2, hsum⟩ := ihn hnone
                refine ⟨hk2, ?_⟩
                rw [hsum]
                simp [List.length_cons]
                omega
              · intro e he
                obtain ⟨pre, oid2, suf, hids, h1, h2, h3, h4⟩ := ihs e he
                have hpre : syncOrdersLoop env user (oid :: pre) db conn
                    created reasons =
                    syncOrdersLoop env user pre db1 conn1 (created + 1)
                      reasons := by
                  simp only [syncOrdersLoop, hres, if_pos]
                refine ⟨oid :: pre, oid2, suf, by simp [hids], ?_, ?_, ?_, ?_⟩
                · rw [hpre]; exact h1
                · rw [hpre]; exact h2
                · rw [hpre]; exact h3
                · rw [hpre]; exact h4
          | false =>
              have hloop : syncOrdersLoop env user (oid :: rest) db conn
                  created reasons =
                  syncOrdersLoop env user rest db1 conn1 created
                    (incrReason reasons reason) := by
                simp only [syncOrdersLoop, hres]
                rfl
              obtain ⟨ihn, ihs⟩ := ih db1 conn1 created
                (incrReason reasons reason) (incrReason_keys reasons reason hk)
              rw [hloop]
              refine ⟨?_, ?_⟩
              · intro hnone
                obtain ⟨hk2, hsum⟩ := ihn hnone
                refine ⟨hk2, ?_⟩
                rw [hsum, incrReason_sum reasons reason hk]
                simp [List.length_cons]
                omega
              · intro e he
                obtain ⟨pre, oid2, suf, hids, h1, h2, h3, h4⟩ := ihs e he
                have hpre : syncOrdersLoop env user (oid :: pre) db conn
                    created reasons =
                    syncOrdersLoop env user pre db1 conn1 created
                      (incrReason reasons reason) := by
                  simp only [syncOrdersLoop, hres]
                  rfl
                refine ⟨oid :: pre, oid2, suf, by simp [hids], ?_, ?_, ?_, ?_⟩
                · rw [hpre]; exact h1
                · rw [hpre]; exact h2
                · rw [hpre]; exact h3
                · rw [hpre]; exact h4


/-- C5 (amended): in the per-order loop of `sync_recent_orders`, only
*returned* failure reasons are caught and counted — when no call raises,
every order in the batch is accounted for (`created` plus the reason counts
equals the batch size).  A *raised* error is not caught: it aborts the
remaining orders, but the state committed by the already-processed prefix
(and by the failing call itself) persists — nothing is rolled back. -/
theorem claim_C5 (env : Env) (user : Nat) (ids : List String) (db : DbState)
    (conn : MlConnection) :
    ((syncOrdersLoop env user ids db conn 0 []).2.2.2.2 = none →
      (syncOrdersLoop env user ids db conn 0 []).2.2.1 +
        (((syncOrdersLoop env user ids db conn 0 []).2.2.2.1.map
          (·.2)).sum) = ids.length) ∧
    (∀ e, (syncOrdersLoop env user ids db conn 0 []).2.2.2.2 = some e →
      ∃ pre oid suf, ids = pre ++ oid :: suf ∧
        (syncOrdersLoop env user pre db conn 0 []).2.2.2.2 = none ∧
        (syncOrdersLoop env user ids db conn 0 []).2.2.1 =
          (syncOrdersLoop env user pre db conn 0 []).2.2.1 ∧
        (syncOrdersLoop env user ids db conn 0 []).2.2.2.1 =
          (syncOrdersLoop env user pre db conn 0 []).2.2.2.1 ∧
        syncOrder env (syncOrdersLoop env user pre db conn 0 []).1
            (syncOrdersLoop env user pre db conn 0 []).2.1 oid user =
          ((syncOrdersLoop env user ids db conn 0 []).1,
           (syncOrdersLoop env user ids db conn 0 []).2.1, .error e)) := by
  obtain ⟨h1, h2⟩ := syncOrdersLoop_spec env user ids db conn 0 [] (by simp)
  exact ⟨fun hn => by simpa using (h1 hn).2, h2⟩

/-- Witness for C5: a clean one-order batch counts 1 = 1; in the batch
["1", "2"] where fetching order 1 raises, the loop aborts with the raised
error after the empty prefix, leaving order 2 unprocessed. -/
theorem claim_C5_witness :
    ((syncOrdersLoop envW 9 ["77"] dbW connW 0 []).2.2.1 +
      (((syncOrdersLoop envW 9 ["77"] dbW connW 0 []).2.2.2.1.map
        (·.2)).sum) = (["77"] : List String).length) ∧
    (∃ pre oid suf, (["1", "2"] : List String) = pre ++ oid :: suf ∧
      (syncOrdersLoop envC5 9 pre dbW connW 0 []).2.2.2.2 = none ∧
      (syncOrdersLoop envC5 9 ["1", "2"] dbW connW 0 []).2.2.1 =
        (syncOrdersLoop envC5 9 pre dbW connW 0 []).2.2.1 ∧
      (syncOrdersLoop envC5 9 ["1", "2"] dbW connW 0 []).2.2.2.1 =
        (syncOrdersLoop envC5 9 pre dbW connW 0 []).2.2.2.1 ∧
      syncOrder envC5 (syncOrdersLoop envC5 9 pre dbW connW 0 []).1
          (syncOrdersLoop envC5 9 pre dbW connW 0 []).2.1 oid 9 =
        ((syncOrdersLoop envC5 9 ["1", "2"] dbW connW 0 []).1,
         (syncOrdersLoop envC5 9 ["1", "2"] dbW connW 0 []).2.1,
         .error .http)) :=
  ⟨(claim_C5 envW 9 ["77"] dbW connW).1 (by decide),
   (claim_C5 envC5 9 ["1", "2"] dbW connW).2 .http (by decide)⟩

/-- Counterexample for C5 as stated: the loop has no try/except, so the
raised HTTP error from order 1 propagates out of `sync_recent_orders`
uncaught and uncounted, order 2 is never processed (the state is returned
unchanged) even though processing it directly succeeds. -/
theorem claim_C5_counterexample :
    (syncRecentOrders envC5 dbW connW 9).2.2 = .error .http ∧
    (syncRecentOrders envC5 dbW connW 9).1 = dbW ∧
    (syncOrder envC5 dbW connW "2" 9).2.2 = .ok (true, "ok") := by decide


/-- `get_valid_access_token` with an empty stored token. -/
theorem getValidAccessToken_empty (env : Env) (conn : MlConnection)
    (h : conn.accessToken = "") : getValidAccessToken env conn = (conn, "") := by
  unfold getValidAccessToken
  rw [if_pos h]

/-- `get_valid_access_token` when the expiry window does not trigger. -/
theorem getValidAccessToken_noRefresh (env : Env) (conn : MlConnection)
    (h : conn.accessToken ≠ "")
    (hr : ¬ ((match conn.expiresAt with
      | some t => decide (t - 120 ≤ env.now)
      | none => false) = true)) :
    getValidAccessToken env conn = (conn, conn.accessToken) := by
  unfold getValidAccessToken
  rw [if_neg h]
  simp only
  rw [if_neg hr]

/-- `get_valid_access_token` when a refresh happens. -/
theorem getValidAccessToken_refresh (env : Env) (conn : MlConnection)
    (h : conn.accessToken ≠ "")
    (hr : (match conn.expiresAt with
      | some t => decide (t - 120 ≤ env.now)
      | none => false) = true) :
    getValidAccessToken env conn =
      ({ conn with
         accessToken := env.refreshResp.accessToken.getD conn.accessToken,
         refreshToken := env.refreshResp.refreshToken.getD conn.refreshToken,
         expiresAt :=
           if env.refreshResp.expiresIn ≠ 0 then
             some (env.now + env.refreshResp.expiresIn)
           else conn.expiresAt },
       env.refreshResp.accessToken.getD conn.accessToken) := by
  unfold getValidAccessToken
  rw [if_neg h]
  simp only
  rw [if_pos hr]

/-- With a fixed environment, resolving the access token twice is
idempotent: re-running `get_valid_access_token` on the saved connection
returns it unchanged together with the same token. -/
theorem getValidAccessToken_idem (env : Env) (conn : MlConnection) :
    getValidAccessToken env (getValidAccessToken env conn).1 =
      ((getValidAccessToken env conn).1, (getValidAccessToken env conn).2) := by
  by_cases h0 : conn.accessToken = ""
  · rw [getValidAccessToken_empty env conn h0]
    exact getValidAccessToken_empty env conn h0
  · by_cases hr : (match conn.expiresAt with
        | some t => decide (t - 120 ≤ env.now)
        | none => false) = true
    · rw [getValidAccessToken_refresh env conn h0 hr]
      by_cases h1 : env.refreshResp.accessToken.getD conn.accessToken = ""
      · rw [getValidAccessToken_empty env _ h1]
        exact Prod.ext rfl h1.symm
      · by_cases hr2 : (match (if env.refreshResp.expiresIn ≠ 0 then
              some (env.now + env.refreshResp.expiresIn)
            else conn.expiresAt) with
            | some t => decide (t - 120 ≤ env.now)
            | none => false) = true
        · rw [getValidAccessToken_refresh env _ h1 hr2]
          simp only [Prod.mk.injEq]
          constructor
          · cases ha : env.refreshResp.accessToken <;>
              cases hb : env.refreshResp.refreshToken <;>
                by_cases heI : env.refreshResp.expiresIn = 0 <;>
                  simp [ha, hb, heI]
          · cases ha : env.refreshResp.accessToken <;> simp [ha]
        · rw [getValidAccessToken_noRefresh env _ h1 hr2]
    · rw [getValidAccessToken_noRefresh env conn h0 hr]
      exact getValidAccessToken_noRefresh env conn h0 hr


theorem applyWrite_sales (db : DbState) (w : DbWrite) :
    (applyWrite db w).sales =
      db.sales ++ (match w with | .createSale s => [s] | _ => []) := by
  cases w with
  | createSale s => rfl
  | createSaleItem it => simp [applyWrite]
  | exitWrite p q u r pr v wh =>
      show (match registerExit db.ledger p wh q u r true (some pr) (some v)
          (some r) with
        | .ok l => { db with ledger := l }
        | .error _ => db).sales = db.sales ++ []
      cases registerExit db.ledger p wh q u r true (some pr) (some v)
        (some r) <;> simp

theorem applyWrites_sales (ws : List DbWrite) :
    ∀ db : DbState, (applyWrites db ws).sales =
      db.sales ++ ws.filterMap
        (fun w => match w with | .createSale s => some s | _ => none) := by
  induction ws with
  | nil => intro db; simp [applyWrites]
  | cons w ws ih =>
      intro db
      have h1 : (applyWrites db (w :: ws)).sales =
          (applyWrite db w).sales ++ ws.filterMap
            (fun w => match w with | .createSale s => some s | _ => none) :=
        ih (applyWrite db w)
      rw [h1, applyWrite_sales, List.filterMap_cons]
      cases w <;> simp

theorem resolveLinesLoop_sales (env : Env) :
    ∀ (lines : List OrderLine) (db : DbState) (acc : List ResolvedLine),
    (resolveLinesLoop env lines db acc).1.sales = db.sales := by
  intro lines
  induction lines with
  | nil => intro db acc; rfl
  | cons line rest ih =>
      intro db acc
      simp only [resolveLinesLoop]
      repeat' split
      all_goals first | rfl | exact ih db acc | exact ih db _ | exact ih _ _

/-- The ingestion write list carries exactly one sale-record creation. -/
theorem ingestWrites_filterMap_sales (ref : String) (wh user : Nat)
    (total fee tax : Int) (oid : String) (matched : List ResolvedLine) :
    (ingestWrites ref wh user total fee tax oid matched).filterMap
      (fun w => match w with | .createSale s => some s | _ => none) =
      [{ warehouse := wh, total := total, reference := ref, mlOrderId := oid,
         mlCommissionTotal := fee, mlTaxTotal := tax, userId := user }] := by
  unfold ingestWrites
  rw [List.filterMap_cons]
  simp only
  have hflat : ∀ (ms : List ResolvedLine), (ms.flatMap
      (fun m =>
        [DbWrite.createSaleItem
           { saleReference := ref, productId := m.1, quantity := 100 * m.2.1,
             unitPrice := m.2.2.1, discountPercent := 0,
             finalUnitPrice := m.2.2.1, lineTotal := m.2.2.1 * m.2.1,
             vatPercent := m.2.2.2 },
         DbWrite.exitWrite m.1 (100 * m.2.1) user ref m.2.2.1 m.2.2.2
           wh])).filterMap
      (fun w => match w with | .createSale s => some s | _ => none) = [] := by
    intro ms
    induction ms with
    | nil => rfl
    | cons m ms2 ih =>
        rw [List.flatMap_cons, List.filterMap_append, ih]
        rfl
  rw [hflat]

/-- Inversion of a successful `sync_order` call: every guard passed, and the
final state applies the full ingestion write sequence to the post-resolution
state. -/
theorem syncOrder_ok_inv (env : Env) (db : DbState) (conn : MlConnection)
    (oid : String) (user : Nat) (db1 : DbState) (conn1 : MlConnection)
    (h : syncOrder env db conn oid user = (db1, conn1, .ok (true, "ok"))) :
    ∃ order wh,
      (getValidAccessToken env conn).2 ≠ "" ∧
      env.orderDetail oid = some order ∧
      ¬ (order.status = "cancelled" ∨ order.status = "expired") ∧
      db.sales.any (fun s => s.reference = "ML ORDER " ++ oid) = false ∧
      mlWarehouse db = some wh ∧
      (resolveLinesLoop env order.lines db []).2.2 = none ∧
      (resolveLinesLoop env order.lines db []).2.1 ≠ [] ∧
      conn1 = (getValidAccessToken env conn).1 ∧
      db1 = applyWrites (resolveLinesLoop env order.lines db []).1
        (syncOrderWrites env oid order wh user
          (resolveLinesLoop env order.lines db []).2.1) := by
  simp only [syncOrder] at h
  by_cases ht : (getValidAccessToken env conn).2 = ""
  · rw [if_pos ht] at h
    simp at h
  · rw [if_neg ht] at h
    split at h
    next hord => simp at h
    next order hord =>
      by_cases hst : order.status = "cancelled" ∨ order.status = "expired"
      · rw [if_pos hst] at h; simp at h
      · rw [if_neg hst] at h
        by_cases hsale : db.sales.any
            (fun s => s.reference = "ML ORDER " ++ oid) = true
        · rw [if_pos hsale] at h; simp at h
        · rw [if_neg hsale] at h
          split at h
          next hwh => simp at h
          next wh hwh =>
            split at h
            next e herr => simp at h
            next herr =>
              by_cases hm :
                  (resolveLinesLoop env order.lines db []).2.1 = []
              · rw [if_pos hm] at h; simp at h
              · rw [if_neg hm] at h
                simp only [Prod.mk.injEq, Except.ok.injEq] at h
                exact ⟨order, wh, ht, hord, hst,
                  Bool.eq_false_iff.mpr hsale, hwh, herr, hm,
                  h.2.1.symm, h.1.symm⟩

/-- A list none of whose elements satisfies `p` filters to the empty list. -/
theorem filter_eq_nil_of_any_eq_false {α : Type} (p : α → Bool)
    (l : List α) (h : l.any p = false) : l.filter p = [] := by
  induction l with
  | nil => rfl
  | cons a l ih =>
      simp only [List.any_cons, Bool.or_eq_false_iff] at h
      simp [List.filter_cons, h.1, ih h.2]

/-- When the token, order-fetch and status guards pass and a sale with the
order's reference already exists, `sync_order` returns `already_processed`
and leaves the database untouched. -/
theorem syncOrder_already (env : Env) (db : DbState) (conn : MlConnection)
    (oid : String) (user : Nat) (order : OrderData)
    (ht : (getValidAccessToken env conn).2 ≠ "")
    (hord : env.orderDetail oid = some order)
    (hst : ¬ (order.status = "cancelled" ∨ order.status = "expired"))
    (hsale : db.sales.any (fun s => s.reference = "ML ORDER " ++ oid)
      = true) :
    syncOrder env db conn oid user =
      (db, (getValidAccessToken env conn).1,
       .ok (false, "already_processed")) := by
  simp only [syncOrder, hord]
  rw [if_neg ht, if_neg hst, if_pos hsale]

/-- C1: once the token, order-fetch and status guards pass, an existing sale
with reference `"ML ORDER <orderId>"` makes `sync_order` return
`already_processed` with the database unchanged; and after a successful
first call the database holds exactly one sale with that reference and a
second call on the saved state returns `already_processed`, changing
neither the database nor the connection. -/
theorem claim_C1 (env : Env) (db : DbState) (conn : MlConnection)
    (oid : String) (user : Nat) :
    (∀ order, (getValidAccessToken env conn).2 ≠ "" →
      env.orderDetail oid = some order →
      ¬ (order.status = "cancelled" ∨ order.status = "expired") →
      db.sales.any (fun s => s.reference = "ML ORDER " ++ oid) = true →
      syncOrder env db conn oid user =
        (db, (getValidAccessToken env conn).1,
         .ok (false, "already_processed"))) ∧
    (∀ db1 conn1,
      syncOrder env db conn oid user = (db1, conn1, .ok (true, "ok")) →
      (db1.sales.filter
        (fun s => s.reference = "ML ORDER " ++ oid)).length = 1 ∧
      syncOrder env db1 conn1 oid user =
        (db1, conn1, .ok (false, "already_processed"))) := by
  constructor
  · intro order ht hord hst hsale
    exact syncOrder_already env db conn oid user order ht hord hst hsale
  · intro db1 conn1 h
    obtain ⟨order, wh, ht, hord, hst, hsale, hwh, herr, hm, hconn, hdb⟩ :=
      syncOrder_ok_inv env db conn oid user db1 conn1 h
    have hsales : db1.sales = db.sales ++
        [{ warehouse := wh, total := order.totalAmount,
           reference := "ML ORDER " ++ oid, mlOrderId := oid,
           mlCommissionTotal :=
             (paymentTotals (orderPaymentsOf env oid order)).1,
           mlTaxTotal := (paymentTotals (orderPaymentsOf env oid order)).2,
           userId := user }] := by
      rw [hdb, applyWrites_sales, resolveLinesLoop_sales]
      unfold syncOrderWrites
      rw [ingestWrites_filterMap_sales]
    have h0 : db.sales.filter
        (fun s => s.reference = "ML ORDER " ++ oid) = [] :=
      filter_eq_nil_of_any_eq_false _ _ hsale
    constructor
    · rw [hsales, List.filter_append, h0]
      simp
    · have hidem := getValidAccessToken_idem env conn
      have ht2 : (getValidAccessToken env conn1).2 ≠ "" := by
        rw [hconn, hidem]; exact ht
      have hany : db1.sales.any
          (fun s => s.reference = "ML ORDER " ++ oid) = true := by
        rw [hsales]; simp
      have hsec := syncOrder_already env db1 conn1 oid user order
        ht2 hord hst hany
      have hc2 : (getValidAccessToken env conn1).1 = conn1 := by
        rw [hconn, hidem]
      rw [hc2] at hsec
      exact hsec

/-- C1 witness: with the existing order-77 sale, `sync_order` returns
`already_processed` and leaves `dbC1` unchanged; and the successful order-77
sync on `dbW` leaves exactly one matching sale, with the repeated call
returning `already_processed` on an unchanged state. -/
theorem claim_C1_witness :
    syncOrder envW dbC1 connW "77" 9 =
      (dbC1, (getValidAccessToken envW connW).1,
       .ok (false, "already_processed")) ∧
    ((syncOrder envW dbW connW "77" 9).1.sales.filter
        (fun s => s.reference = "ML ORDER " ++ "77")).length = 1 ∧
    syncOrder envW (syncOrder envW dbW connW "77" 9).1
        (syncOrder envW dbW connW "77" 9).2.1 "77" 9 =
      ((syncOrder envW dbW connW "77" 9).1,
       (syncOrder envW dbW connW "77" 9).2.1,
       .ok (false, "already_processed")) := by
  have h : syncOrder envW dbW connW "77" 9 =
      ((syncOrder envW dbW connW "77" 9).1,
       (syncOrder envW dbW connW "77" 9).2.1, .ok (true, "ok")) := by decide
  have hc := (claim_C1 envW dbW connW "77" 9).2
    (syncOrder envW dbW connW "77" 9).1
    (syncOrder envW dbW connW "77" 9).2.1 h
  have ha := (claim_C1 envW dbC1 connW "77" 9).1 orderW
    (by decide) (by decide) (by decide) (by decide)
  exact ⟨ha, hc.1, hc.2⟩

/-- C1 counterexample: order 77 is cancelled and a sale with reference
`"ML ORDER 77"` already exists, yet `sync_order` returns `ignored_status`,
not `already_processed`: the status check precedes the idempotency check. -/
theorem claim_C1_counterexample :
    dbC1.sales.any (fun s => s.reference = "ML ORDER " ++ "77") = true ∧
    (syncOrder envC1 dbC1 connW "77" 9).2.2 =
      .ok (false, "ignored_status") ∧
    (syncOrder envC1 dbC1 connW "77" 9).2.2 ≠
      .ok (false, "already_processed") := by
  refine ⟨by decide, by decide, by decide⟩

/-- C6: the ingestion of a resolved order is a sequence of individually
committed writes — sale record first, then per line one sale line and one
ledger exit — with no enclosing transaction: a successful call ends in the
fold of the full write list over the post-resolution state, and after any
nonempty prefix of that write list the sale record is already persisted,
so an interruption midway leaves the sale (and any earlier writes) in the
database. -/
theorem claim_C6 (env : Env) (db : DbState) (conn : MlConnection)
    (oid : String) (user : Nat) (db1 : DbState) (conn1 : MlConnection)
    (h : syncOrder env db conn oid user = (db1, conn1, .ok (true, "ok"))) :
    ∃ order wh,
      env.orderDetail oid = some order ∧
      mlWarehouse db = some wh ∧
      db1 = applyWrites (resolveLinesLoop env order.lines db []).1
        (syncOrderWrites env oid order wh user
          (resolveLinesLoop env order.lines db []).2.1) ∧
      ∀ k, 1 ≤ k →
        { warehouse := wh, total := order.totalAmount,
          reference := "ML ORDER " ++ oid, mlOrderId := oid,
          mlCommissionTotal :=
            (paymentTotals (orderPaymentsOf env oid order)).1,
          mlTaxTotal := (paymentTotals (orderPaymentsOf env oid order)).2,
          userId := user } ∈
          (applyWrites (resolveLinesLoop env order.lines db []).1
            ((syncOrderWrites env oid order wh user
               (resolveLinesLoop env order.lines db []).2.1).take k)).sales
    := by
  obtain ⟨order, wh, ht, hord, hst, hsale, hwh, herr, hm, hconn, hdb⟩ :=
    syncOrder_ok_inv env db conn oid user db1 conn1 h
  refine ⟨order, wh, hord, hwh, hdb, ?_⟩
  intro k hk
  cases k with
  | zero => exact absurd hk (by decide)
  | succ j =>
      have hws : syncOrderWrites env oid order wh user
          (resolveLinesLoop env order.lines db []).2.1 =
          DbWrite.createSale
            { warehouse := wh, total := order.totalAmount,
              reference := "ML ORDER " ++ oid, mlOrderId := oid,
              mlCommissionTotal :=
                (paymentTotals (orderPaymentsOf env oid order)).1,
              mlTaxTotal := (paymentTotals (orderPaymentsOf env oid order)).2,
              userId := user } ::
          (syncOrderWrites env oid order wh user
            (resolveLinesLoop env order.lines db []).2.1).tail := rfl
      rw [hws, List.take_succ_cons, applyWrites_sales, List.filterMap_cons]
      simp

/-- C6 witness: the successful sync of order 77 applies its write sequence
one by one, and every nonempty prefix of that sequence already persists the
sale record. -/
theorem claim_C6_witness :
    ∃ order wh,
      envW.orderDetail "77" = some order ∧
      mlWarehouse dbW = some wh ∧
      (syncOrder envW dbW connW "77" 9).1 =
        applyWrites (resolveLinesLoop envW order.lines dbW []).1
          (syncOrderWrites envW "77" order wh 9
            (resolveLinesLoop envW order.lines dbW []).2.1) ∧
      ∀ k, 1 ≤ k →
        { warehouse := wh, total := order.totalAmount,
          reference := "ML ORDER " ++ "77", mlOrderId := "77",
          mlCommissionTotal :=
            (paymentTotals (orderPaymentsOf envW "77" order)).1,
          mlTaxTotal := (paymentTotals (orderPaymentsOf envW "77" order)).2,
          userId := 9 } ∈
          (applyWrites (resolveLinesLoop envW order.lines dbW []).1
            ((syncOrderWrites envW "77" order wh 9
               (resolveLinesLoop envW order.lines dbW []).2.1).take k)).sales
    :=
  claim_C6 envW dbW connW "77" 9 (syncOrder envW dbW connW "77" 9).1
    (syncOrder envW dbW connW "77" 9).2.1 (by decide)

/-- C6 counterexample: for order 77 the successful final state is the fold
of a three-write sequence, and stopping after the first write — the sale
creation — leaves a state with the sale persisted but no sale line and no
ledger movement: the ingestion is not all-or-nothing. -/
theorem claim_C6_counterexample :
    (syncOrder envW dbW connW "77" 9).1 =
      applyWrites (resolveLinesLoop envW orderW.lines dbW []).1
        (syncOrderWrites envW "77" orderW 2 9
          (resolveLinesLoop envW orderW.lines dbW []).2.1) ∧
    (syncOrderWrites envW "77" orderW 2 9
       (resolveLinesLoop envW orderW.lines dbW []).2.1).take 1 ≠
      syncOrderWrites envW "77" orderW 2 9
        (resolveLinesLoop envW orderW.lines dbW []).2.1 ∧
    (applyWrites (resolveLinesLoop envW orderW.lines dbW []).1
        ((syncOrderWrites envW "77" orderW 2 9
           (resolveLinesLoop envW orderW.lines dbW []).2.1).take 1)).sales.any
      (fun s => s.reference = "ML ORDER " ++ "77") = true ∧
    (applyWrites (resolveLinesLoop envW orderW.lines dbW []).1
        ((syncOrderWrites envW "77" orderW 2 9
           (resolveLinesLoop envW orderW.lines dbW []).2.1).take 1)).saleItems
      = [] ∧
    (applyWrites (resolveLinesLoop envW orderW.lines dbW []).1
        ((syncOrderWrites envW "77" orderW 2 9
           (resolveLinesLoop envW orderW.lines dbW []).2.1).take
          1)).ledger.movements = [] := by
  refine ⟨by decide, by decide, by decide, by decide, by decide⟩

end Erp
